import Mathlib

/-!
# ASCII STL import and export (`LoaderStl.cpp`, `SaverStl.cpp`)

A shallow embedding of `LoaderStl::parse_face`, `LoaderStl::load` and `SaverStl::save`.

* Stored floats are an arbitrary type `F`.  The three collaborators that touch the text form of a
  float or of a file (`TokenizerFile` splitting, float recognition, `printf("%f")`) are gathered
  in `Env F` and every theorem holds for every choice of them.
* Exceptions (`throw new StrException(msg)`) are `Except String`.
* Reads of a `vector` outside its bounds are undefined behaviour; `SaverStl.save` returns `none`
  for them.  So is the method call `shapeGeometry->isIndexedFaceSet()` on a `Shape` whose
  geometry field is unset (a null pointer); `SaverStl.save` returns `none` for it as well.
* The `while (true)` loop of the importer runs on fuel; `LoaderStl.load` supplies more fuel than
  there are tokens and `LoaderStl.load_total` shows that it never runs out.
* Vector sizes are natural numbers and vertex indices are integers: the conversion of
  `coord.size() / 3` to `int` is taken to be exact, as it is for every mesh with fewer than
  `2^31` vertices.
-/

namespace Stl

/-! ## Data model -/

/-- A `Vec3f`: three scalars. -/
structure Vec3f (F : Type) where
  x : F
  y : F
  z : F
deriving DecidableEq, Repr

/-- One face record: a normal and three vertices, in file order.  With `α := String` it is the
record as written in a file, with `α := F` the record as stored floats. -/
structure Face (α : Type) where
  n : Vec3f α
  v1 : Vec3f α
  v2 : Vec3f α
  v3 : Vec3f α
deriving DecidableEq, Repr

/-- External collaborators whose code is not part of the two translation units.
`scan` is the splitting of a file's text into tokens done by `TokenizerFile`, `stof` is the
tokenizer's recognition of one token as a float (`none`: not a float), `fmt` is the text
`printf` produces for `%f`. -/
structure Env (F : Type) where
  scan : String → List String
  stof : String → Option F
  fmt : F → String

/-- Modelled from the spec: the mesh container `IndexedFaceSet` (its class is not among the
sources).  It owns the index list, the flat coordinate sequence, the flat normal sequence, the
per-vertex/per-face flag, and a node name. -/
structure IndexedFaceSet (F : Type) where
  name : String
  coordIndex : List Int
  coord : List F
  normal : List F
  normalPerVertex : Bool
deriving DecidableEq, Repr

/-- Modelled from the spec: a `Material` node; its content is not interpreted. -/
structure Material where
  name : String
deriving DecidableEq, Repr

/-- Modelled from the spec: an `Appearance` node with its (possibly unset) material field. -/
structure Appearance where
  name : String
  material : Option Material
deriving DecidableEq, Repr

/-- Modelled from the spec: what a `Shape`'s geometry field holds: the mesh container, a
geometry node of another kind, or nothing (`unset`, the null pointer of a shape to which no
geometry was given). -/
inductive Geometry (F : Type) where
  | indexedFaceSet (ifs : IndexedFaceSet F)
  | otherGeometry (name : String)
  | unset
deriving DecidableEq, Repr

/-- Modelled from the spec: a `Shape` node with its appearance and geometry fields. -/
structure Shape (F : Type) where
  name : String
  appearance : Option Appearance
  geometry : Geometry F
deriving DecidableEq, Repr

/-- Modelled from the spec: a child of the scene graph, a `Shape` or a node of another kind. -/
inductive Node (F : Type) where
  | shape (s : Shape F)
  | otherNode (name : String)
deriving DecidableEq, Repr

/-- Modelled from the spec: the scene wrapper `SceneGraph`: a name, an identifying label
(`url`) and the list of children. -/
structure SceneGraph (F : Type) where
  name : String
  url : String
  children : List (Node F)
deriving DecidableEq, Repr

/-- The `isShape()` test of a node. -/
def Node.isShape {F : Type} : Node F → Bool
  | .shape _ => true
  | .otherNode _ => false

/-- The `isIndexedFaceSet()` test of a node in a geometry field.  An unset field holds no
node to ask; `false` there only says that no `IndexedFaceSet` is present, and `SaverStl.save`
does not take it for the outcome of the call. -/
def Geometry.isIndexedFaceSet {F : Type} : Geometry F → Bool
  | .indexedFaceSet _ => true
  | .otherGeometry _ => false
  | .unset => false

/-- Modelled from the spec: `SceneGraph::clear`, "reset the target wrapper to empty". -/
def SceneGraph.clear {F : Type} (wrl : SceneGraph F) : SceneGraph F :=
  { wrl with children := [] }

/-- Modelled from the spec: `SceneGraph::setUrl`, which sets the identifying label. -/
def SceneGraph.setUrl {F : Type} (wrl : SceneGraph F) (url : String) : SceneGraph F :=
  { wrl with url := url }

/-- Modelled from the spec: `SceneGraph::addChild`, which appends a child. -/
def SceneGraph.addChild {F : Type} (wrl : SceneGraph F) (child : Node F) : SceneGraph F :=
  { wrl with children := wrl.children ++ [child] }

/-- `SceneGraph::getNumberOfChildren`. -/
def SceneGraph.getNumberOfChildren {F : Type} (wrl : SceneGraph F) : Nat :=
  wrl.children.length

/-! ## Files -/

/-- The files the two routines see: the text of each existing file, and the paths that cannot
be opened for writing. -/
structure FileSystem where
  files : List (String × String)
  unwritable : List String
deriving DecidableEq, Repr

/-- The call `fopen(path, "r")`: the text of the file, `none` when the open fails. -/
def FileSystem.fopenRead (fs : FileSystem) (path : String) : Option String :=
  fs.files.lookup path

/-- The call `fopen(path, "w")`: `true` when a stream is obtained.  The empty path names no
file, and the paths in `unwritable` are refused. -/
def FileSystem.fopenWrite (fs : FileSystem) (path : String) : Bool :=
  !(path == "" || fs.unwritable.contains path)

/-- The file system once a stream opened by `fopen(path, "w")` has received `text` and has been
closed: `path` now holds exactly `text`. -/
def FileSystem.fclose (fs : FileSystem) (path : String) (text : String) : FileSystem :=
  { fs with files := (path, text) :: fs.files.filter (fun e => e.1 != path) }

/-! ## Tokenizer -/

/-- Modelled from the spec: the token cursor `Tokenizer` (its class is not among the sources).
`rest` holds the tokens not yet read; `cur` is the token read last (the tokenizer object is
itself that string). -/
structure Tokenizer where
  rest : List String
  cur : String
deriving DecidableEq, Repr

/-- Modelled from the spec: `Tokenizer::get`, "read next token" (boolean success + token
value).  At end of input it reports `false`. -/
def Tokenizer.get (t : Tokenizer) : Bool × Tokenizer :=
  match t.rest with
  | [] => (false, { t with cur := "" })
  | x :: xs => (true, { rest := xs, cur := x })

/-- Modelled from the spec: `Tokenizer::equals`, "current token equals literal X"
(non-consuming). -/
def Tokenizer.equals (t : Tokenizer) (s : String) : Bool :=
  t.cur == s

/-- Modelled from the spec: `Tokenizer::expecting`, "require next token equals literal X":
it reads one token and compares it. -/
def Tokenizer.expecting (t : Tokenizer) (s : String) : Bool × Tokenizer :=
  match t.get with
  | (false, t1) => (false, t1)
  | (true, t1) => (t1.equals s, t1)

/-- Modelled from the spec: reading the next token as one float. -/
def Tokenizer.getFloat {F : Type} (env : Env F) (t : Tokenizer) : Option F × Tokenizer :=
  match t.get with
  | (false, t1) => (none, t1)
  | (true, t1) => (env.stof t1.cur, t1)

/-- Modelled from the spec: `Tokenizer::getVec3f`, "parse next token(s) as a 3-vector of
floats" (boolean + value): three floats in a row, stopping at the first that fails. -/
def Tokenizer.getVec3f {F : Type} (env : Env F) (t : Tokenizer) : Option (Vec3f F) × Tokenizer :=
  match t.getFloat env with
  | (none, t1) => (none, t1)
  | (some x, t1) =>
    match t1.getFloat env with
    | (none, t2) => (none, t2)
    | (some y, t2) =>
      match t2.getFloat env with
      | (none, t3) => (none, t3)
      | (some z, t3) => (some ⟨x, y, z⟩, t3)

/-- Modelled from the spec: `TokenizerFile tkn(fp)`, a cursor at the start of the tokens of an
opened file. -/
def TokenizerFile {F : Type} (env : Env F) (text : String) : Tokenizer :=
  { rest := env.scan text, cur := "" }

/-! ## `LoaderStl` -/

/-- The body of the `for (Vec3f* v : {&v1, &v2, &v3})` loop of `LoaderStl::parse_face`. -/
def LoaderStl.parse_vertex {F : Type} (env : Env F) (tkn : Tokenizer) :
    Except String (Vec3f F × Tokenizer) :=
  match tkn.expecting "vertex" with
  | (false, _) => .error "expected token: \"vertex\""
  | (true, t1) =>
    match t1.getVec3f env with
    | (none, _) => .error "expected Vec3f"
    | (some tmp, t2) => .ok (tmp, t2)

/-- `LoaderStl::parse_face`: called with the cursor on `facet`; returns the face read and the
cursor after `endfacet`, or the message of the exception thrown. -/
def LoaderStl.parse_face {F : Type} (env : Env F) (tkn : Tokenizer) :
    Except String (Face F × Tokenizer) :=
  match tkn.expecting "normal" with
  | (false, _) => .error "expected token: \"normal\""
  | (true, t1) =>
  match t1.getVec3f env with
  | (none, _) => .error "expected Vec3f as normal"
  | (some n, t2) =>
  match t2.expecting "outer" with
  | (false, _) => .error "expected token: \"outer\""
  | (true, t3) =>
  match t3.expecting "loop" with
  | (false, _) => .error "expected token: \"loop\""
  | (true, t4) =>
  match LoaderStl.parse_vertex env t4 with
  | .error e => .error e
  | .ok (v1, t5) =>
  match LoaderStl.parse_vertex env t5 with
  | .error e => .error e
  | .ok (v2, t6) =>
  match LoaderStl.parse_vertex env t6 with
  | .error e => .error e
  | .ok (v3, t7) =>
  match t7.expecting "endloop" with
  | (false, _) => .error "expected token: \"endloop\""
  | (true, t8) =>
  match t8.expecting "endfacet" with
  | (false, _) => .error "expected token: \"endfacet\""
  | (true, t9) => .ok (⟨n, v1, v2, v3⟩, t9)

/-- The body of the `for (Vec3f* v : {&v1, &v2, &v3})` loop of `LoaderStl::load`: push the index
`coord.size() / 3`, then the three coordinates. -/
def IndexedFaceSet.pushVertex {F : Type} (ifs : IndexedFaceSet F) (v : Vec3f F) :
    IndexedFaceSet F :=
  { ifs with
    coordIndex := ifs.coordIndex ++ [((ifs.coord.length / 3 : Nat) : Int)]
    coord := ifs.coord ++ [v.x, v.y, v.z] }

/-- Lines 146-153 of `LoaderStl::load`: the three vertices, the sentinel, the normal. -/
def IndexedFaceSet.pushFace {F : Type} (ifs : IndexedFaceSet F) (f : Face F) :
    IndexedFaceSet F :=
  let ifs3 := ((ifs.pushVertex f.v1).pushVertex f.v2).pushVertex f.v3
  { ifs3 with
    coordIndex := ifs3.coordIndex ++ [-1]
    normal := ifs3.normal ++ [f.n.x, f.n.y, f.n.z] }

/-- The `while (true)` loop of `LoaderStl::load` (lines 138-154), on fuel.  The result is the
mesh container as the loop leaves it together with `.ok ()` after `break`, or with the message
of the exception thrown; `none` only when the fuel runs out. -/
def LoaderStl.faceLoop {F : Type} (env : Env F) :
    Nat → Tokenizer → IndexedFaceSet F → Option (Except String Unit × IndexedFaceSet F)
  | 0, _, _ => none
  | fuel + 1, tkn, ifs =>
    match tkn.get with
    | (false, _) => some (.error "expected content", ifs)
    | (true, t1) =>
      if t1.equals "endsolid" then some (.ok (), ifs)
      else if !t1.equals "facet" then some (.error "expected token: \"facet\"", ifs)
      else
        match LoaderStl.parse_face env t1 with
        | .error e => some (.error e, ifs)
        | .ok (f, t2) => LoaderStl.faceLoop env fuel t2 (ifs.pushFace f)

/-- What a call of `LoaderStl::load` leaves behind: the returned flag, the scene graph, the lines
written to `stderr`, and how often `fopen` returned a stream and `fclose` was called. -/
structure LoadResult (F : Type) where
  success : Bool
  wrl : SceneGraph F
  stderr : List String
  opened : Nat
  closed : Nat
deriving DecidableEq, Repr

/-- The line `fprintf(stderr, "ERROR | %s\n", e->what())` of the `catch` block. -/
def LoaderStl.report (msg : String) : String :=
  "ERROR | " ++ msg ++ "\n"

/-- The `Shape` of lines 99-110 of `LoaderStl::load`: a new shape holding a new `Appearance`
with a new `Material`, and the mesh container as geometry. -/
def LoaderStl.newShape {F : Type} (ifs : IndexedFaceSet F) : Shape F :=
  { name := ""
    appearance := some { name := "", material := some { name := "" } }
    geometry := .indexedFaceSet ifs }

/-- The scene graph of lines 99-118 of `LoaderStl::load`: the shape is added as a child. -/
def LoaderStl.link {F : Type} (wrl : SceneGraph F) (ifs : IndexedFaceSet F) : SceneGraph F :=
  wrl.addChild (.shape (LoaderStl.newShape ifs))

/-- `LoaderStl::load`.  `filename = none` is the null pointer.  The token after `solid` is copied
to the local `stlName`, which is not used afterwards. -/
def LoaderStl.load {F : Type} (env : Env F) (fs : FileSystem) (filename : Option String)
    (wrl : SceneGraph F) : Option (LoadResult F) :=
  let wrl := (wrl.clear).setUrl ""
  match filename with
  | none => some ⟨false, wrl, [LoaderStl.report "filename==null"], 0, 0⟩
  | some path =>
    match fs.fopenRead path with
    | none => some ⟨false, wrl, [LoaderStl.report "fp==(FILE*)0"], 0, 0⟩
    | some text =>
      match (TokenizerFile env text).expecting "solid" with
      | (false, _) => some ⟨false, wrl, [], 1, 1⟩
      | (true, t1) =>
        match t1.get with
        | (false, _) => some ⟨false, wrl, [], 1, 1⟩
        | (true, t2) =>
          let ifs : IndexedFaceSet F :=
            { name := "", coordIndex := [], coord := [], normal := [], normalPerVertex := false }
          match LoaderStl.faceLoop env (t2.rest.length + 1) t2 ifs with
          | none => none
          | some (.ok (), ifs1) => some ⟨true, LoaderStl.link wrl ifs1, [], 1, 1⟩
          | some (.error e, ifs1) =>
            some ⟨false, LoaderStl.link wrl ifs1, [LoaderStl.report e], 1, 1⟩

/-! ## Corner table and `SaverStl` -/

/-- Modelled from the spec: `IndexedFaceSet::isTriangleMesh`, "the mesh container is a pure
triangle mesh": the index list is a sequence of blocks of three non-sentinel entries followed
by one sentinel `-1`. -/
def IndexedFaceSet.isTriangleList : List Int → Bool
  | [] => true
  | a :: b :: c :: d :: more =>
    a != -1 && b != -1 && c != -1 && d == -1 && IndexedFaceSet.isTriangleList more
  | _ => false

/-- Modelled from the spec: `IndexedFaceSet::isTriangleMesh`, on the container's index list. -/
def IndexedFaceSet.isTriangleMesh {F : Type} (ifs : IndexedFaceSet F) : Bool :=
  IndexedFaceSet.isTriangleList ifs.coordIndex

/-- Modelled from the spec: `Faces::getNumberOfFaces`, the count of sentinel-delimited runs,
one per sentinel of the index list. -/
def Faces.getNumberOfFaces (coordIndex : List Int) : Nat :=
  coordIndex.count (-1)

/-- Position of the first entry of face `iF` in the list `l` whose first entry sits at
position `pos` of the whole index list. -/
def Faces.firstCornerFrom : List Int → Nat → Nat → Int
  | [], _, _ => -1
  | _ :: _, pos, 0 => (pos : Int)
  | x :: xs, pos, iF + 1 =>
    if x == -1 then Faces.firstCornerFrom xs (pos + 1) iF
    else Faces.firstCornerFrom xs (pos + 1) (iF + 1)

/-- Modelled from the spec: `Faces::getFaceFirstCorner`, "index, in the flat index list, of
that face's first non-sentinel entry"; `-1` when there is no such face. -/
def Faces.getFaceFirstCorner (coordIndex : List Int) (iF : Nat) : Int :=
  Faces.firstCornerFrom coordIndex 0 iF

/-- Position of the first entry of the run that contains position `c`: walk back until the
entry before is a sentinel. -/
def Faces.faceStart (coordIndex : List Int) : Nat → Nat
  | 0 => 0
  | c + 1 => if coordIndex[c]? == some (-1) then c + 1 else Faces.faceStart coordIndex c

/-- Modelled from the spec: `Faces::getNextCorner`, "index of the next non-sentinel entry in the
same face, cycling back to the face's first corner after its last"; `-1` when `iC` is not a
corner. -/
def Faces.getNextCorner (coordIndex : List Int) (iC : Int) : Int :=
  if iC < 0 then -1
  else
    match coordIndex[iC.toNat]? with
    | none => -1
    | some v =>
      if v == -1 then -1
      else
        match coordIndex[iC.toNat + 1]? with
        | none => (Faces.faceStart coordIndex iC.toNat : Int)
        | some w => if w == -1 then (Faces.faceStart coordIndex iC.toNat : Int) else iC + 1

/-- Modelled from the spec: `Faces::getFaceVertex`, "the vertex index stored at that
position"; `-1` when the position is outside the index list. -/
def Faces.getFaceVertex (coordIndex : List Int) (_iF : Nat) (iC : Int) : Int :=
  if iC < 0 then -1 else (coordIndex[iC.toNat]?).getD (-1)

/-- The three reads `a[3 * i]`, `a[3 * i + 1]`, `a[3 * i + 2]` of a flat `vector<float>`;
`none` when one of them is outside the vector. -/
def readVec3f {F : Type} (a : List F) (i : Int) : Option (Vec3f F) :=
  if i < 0 then none
  else
    match a[3 * i.toNat]?, a[3 * i.toNat + 1]?, a[3 * i.toNat + 2]? with
    | some x, some y, some z => some ⟨x, y, z⟩
    | _, _, _ => none

/-- The body of the `for (int v : {v1, v2, v3})` loop of `SaverStl::save`: the text appended
to the stream `fp` for vertex `v`. -/
def SaverStl.writeVertex {F : Type} (env : Env F) (coord : List F) (v : Int) (fp : String) :
    Option String :=
  let fp := fp ++ "\t\t\tvertex "
  match readVec3f coord v with
  | none => none
  | some p => some (fp ++ (env.fmt p.x ++ " " ++ env.fmt p.y ++ " " ++ env.fmt p.z ++ "\n"))

/-- The body of the face loop of `SaverStl::save` (lines 102-133) for face `iF`: the stream
after the record has been appended, `none` when a read is out of bounds. -/
def SaverStl.writeFace {F : Type} (env : Env F) (ifs : IndexedFaceSet F) (iF : Nat)
    (fp : String) : Option String :=
  let c1 := Faces.getFaceFirstCorner ifs.coordIndex iF
  let c2 := Faces.getNextCorner ifs.coordIndex c1
  let c3 := Faces.getNextCorner ifs.coordIndex c2
  let v1 := Faces.getFaceVertex ifs.coordIndex iF c1
  let v2 := Faces.getFaceVertex ifs.coordIndex iF c2
  let v3 := Faces.getFaceVertex ifs.coordIndex iF c3
  match readVec3f ifs.normal (iF : Int) with
  | none => none
  | some n =>
    let fp := fp ++ ("\tfacet normal " ++ env.fmt n.x ++ " " ++ env.fmt n.y ++ " "
                      ++ env.fmt n.z ++ "\n")
    let fp := fp ++ "\t\touter loop\n"
    match SaverStl.writeVertex env ifs.coord v1 fp with
    | none => none
    | some fp =>
    match SaverStl.writeVertex env ifs.coord v2 fp with
    | none => none
    | some fp =>
    match SaverStl.writeVertex env ifs.coord v3 fp with
    | none => none
    | some fp =>
      let fp := fp ++ "\t\tendloop\n"
      some (fp ++ "\tendfacet\n")

/-- The loop `for (int iF = 0; iF < faces.getNumberOfFaces(); ++iF)` of `SaverStl::save`, with
`todo` iterations left, the next one for face `iF`. -/
def SaverStl.faceLoop {F : Type} (env : Env F) (ifs : IndexedFaceSet F) :
    Nat → Nat → String → Option String
  | 0, _, fp => some fp
  | todo + 1, iF, fp =>
    match SaverStl.writeFace env ifs iF fp with
    | none => none
    | some fp1 => SaverStl.faceLoop env ifs todo (iF + 1) fp1

/-- `SaverStl::save`.  `filename = none` is the null pointer.  The result is the returned flag
and the file system afterwards; `none` when the call has no defined outcome: the geometry
field of the shape is unset (line 71 calls a method through it), or the face loop reads
outside a vector. -/
def SaverStl.save {F : Type} (env : Env F) (fs : FileSystem) (filename : Option String)
    (wrl : SceneGraph F) : Option (Bool × FileSystem) :=
  match filename with
  | none => some (false, fs)
  | some path =>
    if wrl.getNumberOfChildren != 1 then some (false, fs)
    else
      match wrl.children with
      | [] => some (false, fs)
      | child :: _ =>
        match child with
        | .otherNode _ => some (false, fs)
        | .shape shape =>
          match shape.geometry with
          | .unset => none
          | .otherGeometry _ => some (false, fs)
          | .indexedFaceSet indexedFaceSet =>
            if !indexedFaceSet.isTriangleMesh then some (false, fs)
            else if indexedFaceSet.normalPerVertex then some (false, fs)
            else if !fs.fopenWrite path then some (false, fs)
            else
              let fp := "solid " ++ path ++ "\n"
              match SaverStl.faceLoop env indexedFaceSet
                  (Faces.getNumberOfFaces indexedFaceSet.coordIndex) 0 fp with
              | none => none
              | some fp =>
                let fp := fp ++ ("endsolid " ++ path ++ "\n")
                some (true, fs.fclose path fp)

/-! ## The text format, as the specification words it -/

/-- Reading the three tokens of a vector written in a file as floats. -/
def Vec3f.parse {F : Type} (env : Env F) (v : Vec3f String) : Option (Vec3f F) :=
  match env.stof v.x, env.stof v.y, env.stof v.z with
  | some x, some y, some z => some ⟨x, y, z⟩
  | _, _, _ => none

/-- Reading the twelve numeric tokens of a face record as floats; `none` when one of them is
not a float. -/
def Face.parse {F : Type} (env : Env F) (r : Face String) : Option (Face F) :=
  match r.n.parse env, r.v1.parse env, r.v2.parse env, r.v3.parse env with
  | some n, some v1, some v2, some v3 => some ⟨n, v1, v2, v3⟩
  | _, _, _, _ => none

/-- The twenty tokens of a face record after its leading `facet`:
`normal nx ny nz outer loop (vertex x y z){3} endloop endfacet`. -/
def Face.body (r : Face String) : List String :=
  ["normal", r.n.x, r.n.y, r.n.z, "outer", "loop",
   "vertex", r.v1.x, r.v1.y, r.v1.z,
   "vertex", r.v2.x, r.v2.y, r.v2.z,
   "vertex", r.v3.x, r.v3.y, r.v3.z,
   "endloop", "endfacet"]

/-- The tokens of a complete face record. -/
def Face.tokens (r : Face String) : List String :=
  "facet" :: r.body

/-- The tokens of a list of face records, in file order. -/
def recordTokens : List (Face String) → List String
  | [] => []
  | r :: rs => r.tokens ++ recordTokens rs

/-- The nine coordinates of the faces, vertex by vertex, in file order. -/
def coordsOf {F : Type} : List (Face F) → List F
  | [] => []
  | f :: fs =>
    [f.v1.x, f.v1.y, f.v1.z, f.v2.x, f.v2.y, f.v2.z, f.v3.x, f.v3.y, f.v3.z] ++ coordsOf fs

/-- The normals of the faces, in file order. -/
def normalsOf {F : Type} : List (Face F) → List F
  | [] => []
  | f :: fs => [f.n.x, f.n.y, f.n.z] ++ normalsOf fs

/-- The index list `[k, k+1, k+2, -1, k+3, k+4, k+5, -1, ...]` of `n` triangles whose first
vertex has index `k`. -/
def triangleIndices : Nat → Nat → List Int
  | _, 0 => []
  | k, n + 1 => [(k : Int), (k : Int) + 1, (k : Int) + 2, -1] ++ triangleIndices (k + 3) n

/-- A token stream of the accepted form: `solid`, a name, complete face records whose numbers
are floats, `endsolid`, and then whatever follows. -/
def Accepted {F : Type} (env : Env F) (toks : List String) : Prop :=
  ∃ (name : String) (recs : List (Face String)) (more : List String),
    toks = "solid" :: name :: (recordTokens recs ++ "endsolid" :: more) ∧
    ∀ r ∈ recs, (r.parse env).isSome = true

/-- The runs of non-sentinel entries of an index list, in order: each sentinel `-1` closes the
run `run` gathered so far, and entries after the last sentinel make a final run. -/
def sentinelRunsFrom : List Int → List Int → List (List Int)
  | [], run => if run.isEmpty then [] else [run]
  | x :: xs, run =>
    if x == -1 then run :: sentinelRunsFrom xs [] else sentinelRunsFrom xs (run ++ [x])

/-- The maximal runs of non-sentinel entries of an index list. -/
def sentinelRuns (coordIndex : List Int) : List (List Int) :=
  sentinelRunsFrom coordIndex []

/-- The record of face `i` of a triangle mesh, as the specification words it: the normal is
`(normal[3i], normal[3i+1], normal[3i+2])` and the three vertices are the coordinate triples at
the vertex indices `coordIndex[4i]`, `coordIndex[4i+1]`, `coordIndex[4i+2]`, in that order;
`none` when one of these entries does not exist. -/
def IndexedFaceSet.faceAt {F : Type} (ifs : IndexedFaceSet F) (i : Nat) : Option (Face F) :=
  match ifs.coordIndex[4 * i]?, ifs.coordIndex[4 * i + 1]?, ifs.coordIndex[4 * i + 2]? with
  | some a, some b, some c =>
    match readVec3f ifs.normal (i : Int), readVec3f ifs.coord a, readVec3f ifs.coord b,
        readVec3f ifs.coord c with
    | some n, some p1, some p2, some p3 => some ⟨n, p1, p2, p3⟩
    | _, _, _, _ => none
  | _, _, _ => none

/-- The records of the `k` faces `i, i+1, ..., i+k-1`, `none` when one of them does not
exist. -/
def IndexedFaceSet.facesFrom {F : Type} (ifs : IndexedFaceSet F) : Nat → Nat → Option (List (Face F))
  | 0, _ => some []
  | k + 1, i =>
    match ifs.faceAt i, IndexedFaceSet.facesFrom ifs k (i + 1) with
    | some f, some fs => some (f :: fs)
    | _, _ => none

/-- The text of one face record as `SaverStl::save` lays it out. -/
def Face.text {F : Type} (env : Env F) (f : Face F) : String :=
  "\tfacet normal " ++ env.fmt f.n.x ++ " " ++ env.fmt f.n.y ++ " " ++ env.fmt f.n.z ++ "\n"
  ++ "\t\touter loop\n"
  ++ "\t\t\tvertex " ++ env.fmt f.v1.x ++ " " ++ env.fmt f.v1.y ++ " " ++ env.fmt f.v1.z ++ "\n"
  ++ "\t\t\tvertex " ++ env.fmt f.v2.x ++ " " ++ env.fmt f.v2.y ++ " " ++ env.fmt f.v2.z ++ "\n"
  ++ "\t\t\tvertex " ++ env.fmt f.v3.x ++ " " ++ env.fmt f.v3.y ++ " " ++ env.fmt f.v3.z ++ "\n"
  ++ "\t\tendloop\n"
  ++ "\tendfacet\n"

/-- The text of a list of face records, one after the other. -/
def facesText {F : Type} (env : Env F) : List (Face F) → String
  | [] => ""
  | f :: fs => f.text env ++ facesText env fs

/-- The mesh container after the faces `fs` have been pushed one by one. -/
def IndexedFaceSet.pushFaces {F : Type} (ifs : IndexedFaceSet F) (fs : List (Face F)) :
    IndexedFaceSet F :=
  fs.foldl IndexedFaceSet.pushFace ifs

/-- The empty mesh container `LoaderStl::load` starts from, marked per-face-normal. -/
def IndexedFaceSet.fresh (F : Type) : IndexedFaceSet F :=
  { name := "", coordIndex := [], coord := [], normal := [], normalPerVertex := false }

/-! ## Validation and array bounds of the exporter, as the specification words them -/

/-- The scene graph `wrl`, with mesh `ifs`, passes every validation check of `SaverStl::save`
for the file name `filename`: the file name is not null, there is exactly one child, the child
is a `Shape`, its geometry is the `IndexedFaceSet` `ifs`, `ifs` is a triangle mesh, and its
normals are per face. -/
def SaverStl.Validated {F : Type} (filename : Option String) (wrl : SceneGraph F)
    (ifs : IndexedFaceSet F) : Prop :=
  filename ≠ none ∧ wrl.getNumberOfChildren = 1 ∧
  ∃ shape : Shape F, wrl.children = [Node.shape shape] ∧
    shape.geometry = .indexedFaceSet ifs ∧ ifs.isTriangleMesh = true ∧
    ifs.normalPerVertex = false

/-- Every read of the face loop of `SaverStl::save` is inside its vector: `3 iF + 2` is a
position of the normal sequence for every face `iF`, and every vertex index `v` of the index
list is non-negative with `3 v + 2` a position of the coordinate sequence. -/
def SaverStl.ReadsInBounds {F : Type} (ifs : IndexedFaceSet F) : Prop :=
  (∀ iF, iF < Faces.getNumberOfFaces ifs.coordIndex → 3 * iF + 2 < ifs.normal.length) ∧
  (∀ v ∈ ifs.coordIndex, v ≠ -1 → 0 ≤ v ∧ 3 * v + 2 < (ifs.coord.length : Int))

/-- The invariants of the data model that relate the arrays of a mesh: the normal sequence has
one triple per face, and every vertex index of the index list references an entry of the
coordinate sequence. -/
def IndexedFaceSet.ArraysConsistent {F : Type} (ifs : IndexedFaceSet F) : Prop :=
  ifs.normal.length = 3 * Faces.getNumberOfFaces ifs.coordIndex ∧
  (∀ v ∈ ifs.coordIndex, v ≠ -1 → 0 ≤ v ∧ v < ((ifs.coord.length / 3 : Nat) : Int))

/-! ## A concrete environment, used to run the definitions on examples -/

/-- Splits a list of characters at blanks, tabs and line breaks; `acc` is the token being
read. -/
def Example.scanChars : List Char → List Char → List String
  | [], acc => if acc.isEmpty then [] else [String.mk acc]
  | c :: cs, acc =>
    if c == ' ' || c == '\n' || c == '\t' || c == '\r' then
      (if acc.isEmpty then [] else [String.mk acc]) ++ Example.scanChars cs []
    else Example.scanChars cs (acc ++ [c])

/-- Reads a list of decimal digits, most significant first, onto the accumulator. -/
def Example.readDigits : List Char → Nat → Option Nat
  | [], acc => some acc
  | c :: cs, acc =>
    if c.isDigit then Example.readDigits cs (10 * acc + (c.toNat - '0'.toNat)) else none

/-- Recognises an optionally signed, non-empty string of decimal digits. -/
def Example.readInt (s : String) : Option Int :=
  match s.data with
  | [] => none
  | '-' :: [] => none
  | '-' :: cs => (Example.readDigits cs 0).map (fun n => - (n : Int))
  | cs => (Example.readDigits cs 0).map (fun n => (n : Int))

/-- Decimal digits of a number, most significant first, on fuel. -/
def Example.showNat : Nat → Nat → List Char
  | 0, _ => []
  | fuel + 1, n =>
    if n < 10 then [Nat.digitChar n]
    else Example.showNat fuel (n / 10) ++ [Nat.digitChar (n % 10)]

/-- An environment whose stored floats are integers: tokens are separated by white space, a
float is a signed decimal integer, and `%f` prints the integer followed by six zero decimals. -/
def Example.env : Env Int where
  scan := fun text => Example.scanChars text.data []
  stof := Example.readInt
  fmt := fun v =>
    (if v < 0 then "-" else "") ++ String.mk (Example.showNat (v.natAbs + 1) v.natAbs) ++ ".000000"

/-- The text of the one-face file of the concrete scenario. -/
def Example.cubeText : String :=
  "solid cube\nfacet normal 0 0 1\nouter loop\nvertex 0 0 0\nvertex 1 0 0\nvertex 0 1 0\nendloop\nendfacet\nendsolid cube\n"

/-- A file system holding the one-face file as `cube.stl`. -/
def Example.cubeFs : FileSystem :=
  { files := [("cube.stl", Example.cubeText)], unwritable := [] }

/-- The face record of the one-face file, as written. -/
def Example.cubeRecord : Face String :=
  { n := ⟨"0", "0", "1"⟩, v1 := ⟨"0", "0", "0"⟩, v2 := ⟨"1", "0", "0"⟩, v3 := ⟨"0", "1", "0"⟩ }

/-- The face record of the one-face file, as stored. -/
def Example.cubeFace : Face Int :=
  { n := ⟨0, 0, 1⟩, v1 := ⟨0, 0, 0⟩, v2 := ⟨1, 0, 0⟩, v3 := ⟨0, 1, 0⟩ }

/-- The mesh container the one-face file imports to. -/
def Example.cubeMesh : IndexedFaceSet Int :=
  { name := "", coordIndex := [0, 1, 2, -1], coord := [0, 0, 0, 1, 0, 0, 0, 1, 0],
    normal := [0, 0, 1], normalPerVertex := false }

/-- A scene graph holding one shape with the given geometry. -/
def Example.sceneOf (g : Geometry Int) : SceneGraph Int :=
  { name := "", url := "",
    children := [.shape { name := "",
                          appearance := some { name := "", material := some { name := "" } },
                          geometry := g }] }

/-- What importing the one-face file returns. -/
def Example.cubeLoaded : LoadResult Int :=
  ⟨true, Example.sceneOf (.indexedFaceSet Example.cubeMesh), [], 1, 1⟩

/-- The one-face file cut off inside its face record, after the first vertex. -/
def Example.truncatedText : String :=
  "solid cube\nfacet normal 0 0 1\nouter loop\nvertex 0 0 0\n"

/-- The one-face file with the token `outer` left out. -/
def Example.noOuterText : String :=
  "solid cube\nfacet normal 0 0 1\nloop\nvertex 0 0 0\nvertex 1 0 0\nvertex 0 1 0\nendloop\nendfacet\nendsolid cube\n"

/-- A file system holding the two damaged files. -/
def Example.damagedFs : FileSystem :=
  { files := [("truncated.stl", Example.truncatedText), ("noouter.stl", Example.noOuterText)],
    unwritable := [] }

/-- A mesh container holding one quad. -/
def Example.quadMesh : IndexedFaceSet Int :=
  { name := "", coordIndex := [0, 1, 2, 3, -1], coord := [0, 0, 0, 1, 0, 0, 1, 1, 0, 0, 1, 0],
    normal := [0, 0, 1], normalPerVertex := false }

/-- A mesh container of two triangles that share the vertices 1 and 2. -/
def Example.sharedMesh : IndexedFaceSet Int :=
  { name := "", coordIndex := [0, 1, 2, -1, 2, 1, 3, -1],
    coord := [0, 0, 0, 1, 0, 0, 0, 1, 0, 1, 1, 0],
    normal := [0, 0, 1, 0, 0, 2], normalPerVertex := false }

/-- The two face records of `Example.sharedMesh`. -/
def Example.sharedFaces : List (Face Int) :=
  [{ n := ⟨0, 0, 1⟩, v1 := ⟨0, 0, 0⟩, v2 := ⟨1, 0, 0⟩, v3 := ⟨0, 1, 0⟩ },
   { n := ⟨0, 0, 2⟩, v1 := ⟨0, 1, 0⟩, v2 := ⟨1, 0, 0⟩, v3 := ⟨1, 1, 0⟩ }]

/-- A file system without files in which every non-empty path can be written. -/
def Example.blankFs : FileSystem :=
  { files := [], unwritable := [] }

/-- The file system after `Example.sharedMesh` has been exported to `out.stl`. -/
def Example.sharedSaved : FileSystem :=
  Example.blankFs.fclose "out.stl"
    ("solid out.stl\n" ++ facesText Example.env Example.sharedFaces ++ "endsolid out.stl\n")

/-- An empty scene graph. -/
def Example.emptyScene : SceneGraph Int :=
  { name := "", url := "", children := [] }

/-- A scene graph with prior content: a label, a node of another kind and a shape. -/
def Example.usedScene : SceneGraph Int :=
  { name := "", url := "old.wrl",
    children := [.otherNode "old", .shape (LoaderStl.newShape Example.quadMesh)] }

/-- A file whose first token is not `solid`. -/
def Example.noSolidText : String :=
  "cube\nfacet normal 0 0 1\nouter loop\nvertex 0 0 0\nvertex 1 0 0\nvertex 0 1 0\nendloop\nendfacet\nendsolid cube\n"

/-- A file that ends after `solid`. -/
def Example.onlySolidText : String :=
  "solid\n"

/-- The one-face file followed by a second record that lacks `endloop`. -/
def Example.secondBadText : String :=
  "solid cube\nfacet normal 0 0 1\nouter loop\nvertex 0 0 0\nvertex 1 0 0\nvertex 0 1 0\nendloop\nendfacet\nfacet normal 0 0 1\nouter loop\nvertex 5 5 5\nvertex 6 5 5\nvertex 5 6 5\nendfacet\nendsolid cube\n"

/-- The one-face file followed, after `endsolid`, by a name, stray tokens and a second solid. -/
def Example.trailingText : String :=
  "solid cube\nfacet normal 0 0 1\nouter loop\nvertex 0 0 0\nvertex 1 0 0\nvertex 0 1 0\nendloop\nendfacet\nendsolid other junk\nsolid second\nfacet\n"

/-- A file system holding the files above and the one-face file. -/
def Example.variantsFs : FileSystem :=
  { files := [("cube.stl", Example.cubeText), ("nosolid.stl", Example.noSolidText),
              ("onlysolid.stl", Example.onlySolidText),
              ("secondbad.stl", Example.secondBadText),
              ("trailing.stl", Example.trailingText)],
    unwritable := [] }

/-- A triangle mesh with per-face flag whose normal sequence is empty. -/
def Example.noNormalMesh : IndexedFaceSet Int :=
  { name := "", coordIndex := [0, 1, 2, -1], coord := [0, 0, 0, 1, 0, 0, 0, 1, 0],
    normal := [], normalPerVertex := false }

/-! ## Tokenizer lemmas -/

@[simp] theorem Tokenizer.get_nil (c : String) :
    (Tokenizer.mk [] c).get = (false, Tokenizer.mk [] "") := rfl

@[simp] theorem Tokenizer.get_cons (x : String) (xs : List String) (c : String) :
    (Tokenizer.mk (x :: xs) c).get = (true, Tokenizer.mk xs x) := rfl

@[simp] theorem Tokenizer.expecting_nil (c s : String) :
    (Tokenizer.mk [] c).expecting s = (false, Tokenizer.mk [] "") := rfl

@[simp] theorem Tokenizer.expecting_cons (x : String) (xs : List String) (c s : String) :
    (Tokenizer.mk (x :: xs) c).expecting s = (x == s, Tokenizer.mk xs x) := by
  simp [Tokenizer.expecting, Tokenizer.equals]

@[simp] theorem Tokenizer.getFloat_nil {F : Type} (env : Env F) (c : String) :
    (Tokenizer.mk [] c).getFloat env = (none, Tokenizer.mk [] "") := rfl

@[simp] theorem Tokenizer.getFloat_cons {F : Type} (env : Env F) (x : String)
    (xs : List String) (c : String) :
    (Tokenizer.mk (x :: xs) c).getFloat env = (env.stof x, Tokenizer.mk xs x) := rfl

/-- A successful `expecting` has read exactly the expected token. -/
theorem Tokenizer.expecting_true {t t1 : Tokenizer} {s : String}
    (h : t.expecting s = (true, t1)) : t.rest = s :: t1.rest ∧ t1.cur = s := by
  obtain ⟨xs, c⟩ := t
  cases xs with
  | nil => simp at h
  | cons x xs =>
    simp at h
    obtain ⟨h1, h2⟩ := h
    subst h2
    simp [h1]

/-- A successful `getVec3f` has read exactly three tokens, each of them a float. -/
theorem Tokenizer.getVec3f_some {F : Type} {env : Env F} {t t1 : Tokenizer} {p : Vec3f F}
    (h : t.getVec3f env = (some p, t1)) :
    ∃ a b c, t.rest = a :: b :: c :: t1.rest ∧ Vec3f.parse env ⟨a, b, c⟩ = some p := by
  obtain ⟨xs, cur⟩ := t
  rcases xs with _ | ⟨a, _ | ⟨b, _ | ⟨c, xs⟩⟩⟩
  · simp [Tokenizer.getVec3f] at h
  · cases ha : env.stof a <;> simp [Tokenizer.getVec3f, ha] at h
  · cases ha : env.stof a <;> cases hb : env.stof b <;> simp [Tokenizer.getVec3f, ha, hb] at h
  · refine ⟨a, b, c, ?_⟩
    cases ha : env.stof a <;> cases hb : env.stof b <;> cases hc : env.stof c <;>
      simp [Tokenizer.getVec3f, Vec3f.parse, ha, hb, hc] at h ⊢
    obtain ⟨h1, h2⟩ := h
    subst h2
    simp [h1]

/-- On three float tokens `getVec3f` succeeds and stops after the third. -/
theorem Tokenizer.getVec3f_of_parse {F : Type} {env : Env F} {a b c : String} {p : Vec3f F}
    (h : Vec3f.parse env ⟨a, b, c⟩ = some p) (xs : List String) (cur : String) :
    (Tokenizer.mk (a :: b :: c :: xs) cur).getVec3f env = (some p, Tokenizer.mk xs c) := by
  cases ha : env.stof a <;> cases hb : env.stof b <;> cases hc : env.stof c <;>
    simp [Tokenizer.getVec3f, Vec3f.parse, ha, hb, hc] at h ⊢
  exact h

/-! ## `parse_face` on well-formed records, and what a successful `parse_face` has read -/

theorem LoaderStl.parse_vertex_of_parse {F : Type} {env : Env F} {v : Vec3f String}
    {p : Vec3f F} (h : v.parse env = some p) (xs : List String) (cur : String) :
    LoaderStl.parse_vertex env (Tokenizer.mk ("vertex" :: v.x :: v.y :: v.z :: xs) cur)
      = .ok (p, Tokenizer.mk xs v.z) := by
  have h1 : Vec3f.parse env ⟨v.x, v.y, v.z⟩ = some p := h
  simp [LoaderStl.parse_vertex, Tokenizer.getVec3f_of_parse h1]

theorem LoaderStl.parse_vertex_ok {F : Type} {env : Env F} {t t1 : Tokenizer} {p : Vec3f F}
    (h : LoaderStl.parse_vertex env t = .ok (p, t1)) :
    ∃ v : Vec3f String, t.rest = "vertex" :: v.x :: v.y :: v.z :: t1.rest ∧
      v.parse env = some p := by
  unfold LoaderStl.parse_vertex at h
  split at h
  · cases h
  · rename_i ta hta
    split at h
    · cases h
    · rename_i q tb htb
      cases h
      obtain ⟨a, b, c, hr, hp⟩ := Tokenizer.getVec3f_some htb
      obtain ⟨hr0, _⟩ := Tokenizer.expecting_true hta
      exact ⟨⟨a, b, c⟩, by rw [hr0, hr], hp⟩

/-- The four vectors of a record that parses. -/
theorem Face.parse_some {F : Type} {env : Env F} {r : Face String} {f : Face F}
    (h : r.parse env = some f) :
    r.n.parse env = some f.n ∧ r.v1.parse env = some f.v1 ∧
    r.v2.parse env = some f.v2 ∧ r.v3.parse env = some f.v3 := by
  unfold Face.parse at h
  split at h
  · rename_i n v1 v2 v3 hn h1 h2 h3
    cases h
    exact ⟨hn, h1, h2, h3⟩
  · cases h

/-- On the tokens of a well-formed record `parse_face` returns the record's floats and leaves
the cursor on `endfacet`. -/
theorem LoaderStl.parse_face_body {F : Type} {env : Env F} {r : Face String} {f : Face F}
    (h : r.parse env = some f) (xs : List String) (cur : String) :
    LoaderStl.parse_face env (Tokenizer.mk (r.body ++ xs) cur)
      = .ok (f, Tokenizer.mk xs "endfacet") := by
  obtain ⟨hn, h1, h2, h3⟩ := Face.parse_some h
  have hn1 : Vec3f.parse env ⟨r.n.x, r.n.y, r.n.z⟩ = some f.n := hn
  simp [LoaderStl.parse_face, Face.body, Tokenizer.getVec3f_of_parse hn1,
    LoaderStl.parse_vertex_of_parse h1, LoaderStl.parse_vertex_of_parse h2,
    LoaderStl.parse_vertex_of_parse h3]

/-- A successful `parse_face` has read exactly the twenty tokens of a well-formed record. -/
theorem LoaderStl.parse_face_ok {F : Type} {env : Env F} {t t1 : Tokenizer} {f : Face F}
    (h : LoaderStl.parse_face env t = .ok (f, t1)) :
    ∃ r : Face String, t.rest = r.body ++ t1.rest ∧ r.parse env = some f := by
  unfold LoaderStl.parse_face at h
  split at h
  · cases h
  rename_i ta hta
  split at h
  · cases h
  rename_i n tb htb
  split at h
  · cases h
  rename_i tc htc
  split at h
  · cases h
  rename_i td htd
  split at h
  · cases h
  rename_i v1 te hte
  split at h
  · cases h
  rename_i v2 tf htf
  split at h
  · cases h
  rename_i v3 tg htg
  split at h
  · cases h
  rename_i th hth
  split at h
  · cases h
  rename_i ti hti
  cases h
  obtain ⟨ra, _⟩ := Tokenizer.expecting_true hta
  obtain ⟨a, b, c, rb, pn⟩ := Tokenizer.getVec3f_some htb
  obtain ⟨rc, _⟩ := Tokenizer.expecting_true htc
  obtain ⟨rd, _⟩ := Tokenizer.expecting_true htd
  obtain ⟨w1, re, p1⟩ := LoaderStl.parse_vertex_ok hte
  obtain ⟨w2, rf, p2⟩ := LoaderStl.parse_vertex_ok htf
  obtain ⟨w3, rg, p3⟩ := LoaderStl.parse_vertex_ok htg
  obtain ⟨rh, _⟩ := Tokenizer.expecting_true hth
  obtain ⟨ri, _⟩ := Tokenizer.expecting_true hti
  refine ⟨⟨⟨a, b, c⟩, w1, w2, w3⟩, ?_, ?_⟩
  · rw [ra, rb, rc, rd, re, rf, rg, rh, ri]
    simp [Face.body]
  · simp [Face.parse, pn, p1, p2, p3]

/-! ## The face loop of the importer -/

theorem recordTokens_length (recs : List (Face String)) :
    (recordTokens recs).length = 21 * recs.length := by
  induction recs with
  | nil => rfl
  | cons r rs ih => simp [recordTokens, Face.tokens, Face.body, ih]; omega

/-- The loop starts by reading a token, so the token under the cursor does not matter. -/
theorem LoaderStl.faceLoop_cur {F : Type} (env : Env F) (fuel : Nat) (xs : List String)
    (c c1 : String) (ifs : IndexedFaceSet F) :
    LoaderStl.faceLoop env fuel (Tokenizer.mk xs c) ifs
      = LoaderStl.faceLoop env fuel (Tokenizer.mk xs c1) ifs := by
  cases fuel with
  | zero => rfl
  | succ k => cases xs <;> simp [LoaderStl.faceLoop]

/-- One iteration on a well-formed record: the face is pushed and the loop goes on behind it. -/
theorem LoaderStl.faceLoop_record {F : Type} {env : Env F} {r : Face String} {f : Face F}
    (h : r.parse env = some f) (fuel : Nat) (xs : List String) (c : String)
    (ifs : IndexedFaceSet F) :
    LoaderStl.faceLoop env (fuel + 1) (Tokenizer.mk (r.tokens ++ xs) c) ifs
      = LoaderStl.faceLoop env fuel (Tokenizer.mk xs c) (ifs.pushFace f) := by
  have hb := LoaderStl.parse_face_body h xs "facet"
  simp only [Face.tokens, List.cons_append, LoaderStl.faceLoop, Tokenizer.get_cons,
    Tokenizer.equals, hb]
  simp
  exact LoaderStl.faceLoop_cur env fuel xs _ _ _

/-- The loop over a run of well-formed records: all of them are pushed, in order. -/
theorem LoaderStl.faceLoop_records {F : Type} (env : Env F) :
    ∀ (recs : List (Face String)) (faces : List (Face F)),
      recs.map (Face.parse env) = faces.map some →
      ∀ (fuel : Nat) (xs : List String) (c : String) (ifs : IndexedFaceSet F),
        LoaderStl.faceLoop env (recs.length + fuel) (Tokenizer.mk (recordTokens recs ++ xs) c) ifs
          = LoaderStl.faceLoop env fuel (Tokenizer.mk xs c) (ifs.pushFaces faces)
  | [], faces, h, fuel, xs, c, ifs => by
    cases faces with
    | nil => simp [recordTokens, IndexedFaceSet.pushFaces]
    | cons f fs => simp at h
  | r :: rs, faces, h, fuel, xs, c, ifs => by
    cases faces with
    | nil => simp at h
    | cons f fs =>
      simp only [List.map_cons, List.cons.injEq] at h
      have ih := LoaderStl.faceLoop_records env rs fs h.2 fuel xs c (ifs.pushFace f)
      have e : (r :: rs).length + fuel = (rs.length + fuel) + 1 := by simp; omega
      rw [e, recordTokens, List.append_assoc, LoaderStl.faceLoop_record h.1, ih]
      rfl

/-- The loop never runs out of fuel when it is given more fuel than there are tokens. -/
theorem LoaderStl.faceLoop_isSome {F : Type} (env : Env F) :
    ∀ (fuel : Nat) (t : Tokenizer) (ifs : IndexedFaceSet F),
      t.rest.length < fuel → (LoaderStl.faceLoop env fuel t ifs).isSome = true
  | 0, _, _, h => by omega
  | fuel + 1, t, ifs, h => by
    obtain ⟨xs, c⟩ := t
    cases xs with
    | nil => simp [LoaderStl.faceLoop]
    | cons x xs =>
      simp only [LoaderStl.faceLoop, Tokenizer.get_cons]
      split
      · rfl
      · split
        · rfl
        · split
          · rfl
          · rename_i f t2 hp
            obtain ⟨r, hr, _⟩ := LoaderStl.parse_face_ok hp
            apply LoaderStl.faceLoop_isSome env fuel t2
            simp only at hr h
            have hl := congrArg List.length hr
            simp [Face.body] at hl h
            omega

/-- A loop that ends with `break` has read a run of well-formed records and then `endsolid`,
and has pushed exactly those records. -/
theorem LoaderStl.faceLoop_ok {F : Type} (env : Env F) :
    ∀ (fuel : Nat) (t : Tokenizer) (ifs ifs1 : IndexedFaceSet F),
      LoaderStl.faceLoop env fuel t ifs = some (.ok (), ifs1) →
      ∃ (recs : List (Face String)) (faces : List (Face F)) (more : List String),
        t.rest = recordTokens recs ++ "endsolid" :: more ∧
        recs.map (Face.parse env) = faces.map some ∧
        ifs1 = ifs.pushFaces faces
  | 0, _, _, _, h => by simp [LoaderStl.faceLoop] at h
  | fuel + 1, t, ifs, ifs1, h => by
    obtain ⟨xs, c⟩ := t
    cases xs with
    | nil => simp [LoaderStl.faceLoop] at h
    | cons x xs =>
      simp only [LoaderStl.faceLoop, Tokenizer.get_cons] at h
      split at h
      · rename_i he
        simp only [Option.some.injEq, Prod.mk.injEq, true_and] at h
        simp only [Tokenizer.equals, beq_iff_eq] at he
        exact ⟨[], [], xs, by simp [recordTokens, he], rfl, by simp [IndexedFaceSet.pushFaces, h]⟩
      · split at h
        · simp at h
        · rename_i hf
          simp only [Tokenizer.equals, Bool.not_eq_true, Bool.not_eq_false',
            beq_iff_eq, Bool.not_not] at hf
          split at h
          · simp at h
          · rename_i f t2 hp
            obtain ⟨r, hr, hpr⟩ := LoaderStl.parse_face_ok hp
            obtain ⟨recs, faces, more, h1, h2, h3⟩ :=
              LoaderStl.faceLoop_ok env fuel t2 (ifs.pushFace f) ifs1 h
            refine ⟨r :: recs, f :: faces, more, ?_, ?_, ?_⟩
            · simp only at hr
              simp [recordTokens, Face.tokens, hf, hr, h1]
            · simp [hpr, h2]
            · simp [IndexedFaceSet.pushFaces, h3]

/-! ## The arrays after a run of pushed faces -/

theorem IndexedFaceSet.pushFaces_cons {F : Type} (ifs : IndexedFaceSet F) (f : Face F)
    (fs : List (Face F)) : ifs.pushFaces (f :: fs) = (ifs.pushFace f).pushFaces fs := rfl

theorem IndexedFaceSet.pushFaces_coord {F : Type} :
    ∀ (fs : List (Face F)) (ifs : IndexedFaceSet F),
      (ifs.pushFaces fs).coord = ifs.coord ++ coordsOf fs
  | [], ifs => by simp [IndexedFaceSet.pushFaces, coordsOf]
  | f :: fs, ifs => by
    rw [IndexedFaceSet.pushFaces_cons, IndexedFaceSet.pushFaces_coord fs]
    simp [IndexedFaceSet.pushFace, IndexedFaceSet.pushVertex, coordsOf]

theorem IndexedFaceSet.pushFaces_normal {F : Type} :
    ∀ (fs : List (Face F)) (ifs : IndexedFaceSet F),
      (ifs.pushFaces fs).normal = ifs.normal ++ normalsOf fs
  | [], ifs => by simp [IndexedFaceSet.pushFaces, normalsOf]
  | f :: fs, ifs => by
    rw [IndexedFaceSet.pushFaces_cons, IndexedFaceSet.pushFaces_normal fs]
    simp [IndexedFaceSet.pushFace, IndexedFaceSet.pushVertex, normalsOf]

theorem IndexedFaceSet.pushFaces_coordIndex {F : Type} :
    ∀ (fs : List (Face F)) (ifs : IndexedFaceSet F),
      (ifs.pushFaces fs).coordIndex
        = ifs.coordIndex ++ triangleIndices (ifs.coord.length / 3) fs.length
  | [], ifs => by simp [IndexedFaceSet.pushFaces, triangleIndices]
  | f :: fs, ifs => by
    rw [IndexedFaceSet.pushFaces_cons, IndexedFaceSet.pushFaces_coordIndex fs]
    have e1 : (ifs.coord.length + 3) / 3 = ifs.coord.length / 3 + 1 := by omega
    have e2 : (ifs.coord.length + 3 + 3) / 3 = ifs.coord.length / 3 + 2 := by omega
    have e3 : (ifs.coord.length + 3 + 3 + 3) / 3 = ifs.coord.length / 3 + 3 := by omega
    simp [IndexedFaceSet.pushFace, IndexedFaceSet.pushVertex, triangleIndices, e1, e2, e3]

theorem IndexedFaceSet.pushFaces_flags {F : Type} :
    ∀ (fs : List (Face F)) (ifs : IndexedFaceSet F),
      (ifs.pushFaces fs).normalPerVertex = ifs.normalPerVertex ∧
      (ifs.pushFaces fs).name = ifs.name
  | [], ifs => by simp [IndexedFaceSet.pushFaces]
  | f :: fs, ifs => by
    rw [IndexedFaceSet.pushFaces_cons]
    have ih := IndexedFaceSet.pushFaces_flags fs (ifs.pushFace f)
    simpa [IndexedFaceSet.pushFace, IndexedFaceSet.pushVertex] using ih

theorem coordsOf_length {F : Type} (fs : List (Face F)) :
    (coordsOf fs).length = 9 * fs.length := by
  induction fs with
  | nil => rfl
  | cons f fs ih => simp [coordsOf, ih]; omega

theorem normalsOf_length {F : Type} (fs : List (Face F)) :
    (normalsOf fs).length = 3 * fs.length := by
  induction fs with
  | nil => rfl
  | cons f fs ih => simp [normalsOf, ih]; omega

theorem triangleIndices_length (k n : Nat) : (triangleIndices k n).length = 4 * n := by
  induction n generalizing k with
  | zero => rfl
  | succ n ih => simp [triangleIndices, ih]; omega

/-! ## `load` as a whole -/

/-- The scene graph `load` writes into: the prior one, cleared, with an empty label. -/
theorem LoaderStl.load_header {F : Type} (env : Env F) (fs : FileSystem) (path text : String)
    (wrl : SceneGraph F) (name : String) (ts : List String)
    (hopen : fs.fopenRead path = some text) (hscan : env.scan text = "solid" :: name :: ts) :
    LoaderStl.load env fs (some path) wrl =
      match LoaderStl.faceLoop env (ts.length + 1) (Tokenizer.mk ts name)
          (IndexedFaceSet.fresh F) with
      | none => none
      | some (.ok (), ifs1) =>
        some ⟨true, LoaderStl.link ((wrl.clear).setUrl "") ifs1, [], 1, 1⟩
      | some (.error e, ifs1) =>
        some ⟨false, LoaderStl.link ((wrl.clear).setUrl "") ifs1, [LoaderStl.report e], 1, 1⟩ := by
  simp [LoaderStl.load, hopen, TokenizerFile, hscan, IndexedFaceSet.fresh]

/-- After `solid`, a name and a run of well-formed records, `load` is decided by the loop on
what follows the records, started from the mesh holding those records. -/
theorem LoaderStl.load_records {F : Type} (env : Env F) (fs : FileSystem) (path text : String)
    (wrl : SceneGraph F) (name : String) (recs : List (Face String)) (faces : List (Face F))
    (tail : List String)
    (hopen : fs.fopenRead path = some text)
    (hscan : env.scan text = "solid" :: name :: (recordTokens recs ++ tail))
    (hparse : recs.map (Face.parse env) = faces.map some) :
    LoaderStl.load env fs (some path) wrl =
      match LoaderStl.faceLoop env (20 * recs.length + tail.length + 1) (Tokenizer.mk tail name)
          ((IndexedFaceSet.fresh F).pushFaces faces) with
      | none => none
      | some (.ok (), ifs1) =>
        some ⟨true, LoaderStl.link ((wrl.clear).setUrl "") ifs1, [], 1, 1⟩
      | some (.error e, ifs1) =>
        some ⟨false, LoaderStl.link ((wrl.clear).setUrl "") ifs1, [LoaderStl.report e], 1, 1⟩ := by
  rw [LoaderStl.load_header env fs path text wrl name _ hopen hscan]
  have e : (recordTokens recs ++ tail).length + 1
      = recs.length + (20 * recs.length + tail.length + 1) := by
    simp [recordTokens_length]; omega
  rw [e, LoaderStl.faceLoop_records env recs faces hparse]

/-- The importer always returns: the fuel given to the loop is enough. -/
theorem LoaderStl.load_total {F : Type} (env : Env F) (fs : FileSystem)
    (filename : Option String) (wrl : SceneGraph F) :
    (LoaderStl.load env fs filename wrl).isSome = true := by
  unfold LoaderStl.load
  cases filename with
  | none => rfl
  | some path =>
    simp only
    split
    · rfl
    · split
      · rfl
      · split
        · rfl
        · rename_i t2 _
          have h := LoaderStl.faceLoop_isSome env (t2.rest.length + 1) t2
            { name := "", coordIndex := [], coord := [], normal := [], normalPerVertex := false }
            (Nat.lt_succ_self _)
          split
          · rename_i hn
            rw [hn] at h
            cases h
          · rfl
          · rfl

/-- A well-formed stream is imported successfully, and the mesh holds its records. -/
theorem LoaderStl.load_accepted {F : Type} (env : Env F) (fs : FileSystem) (path text : String)
    (wrl : SceneGraph F) (name : String) (recs : List (Face String)) (faces : List (Face F))
    (more : List String)
    (hopen : fs.fopenRead path = some text)
    (hscan : env.scan text = "solid" :: name :: (recordTokens recs ++ "endsolid" :: more))
    (hparse : recs.map (Face.parse env) = faces.map some) :
    LoaderStl.load env fs (some path) wrl =
      some ⟨true, LoaderStl.link ((wrl.clear).setUrl "")
        ((IndexedFaceSet.fresh F).pushFaces faces), [], 1, 1⟩ := by
  rw [LoaderStl.load_records env fs path text wrl name recs faces _ hopen hscan hparse]
  simp [LoaderStl.faceLoop, Tokenizer.equals]

/-- A successful import has read a well-formed stream, and the mesh holds its records. -/
theorem LoaderStl.load_success {F : Type} (env : Env F) (fs : FileSystem)
    (filename : Option String) (wrl : SceneGraph F) (res : LoadResult F)
    (h : LoaderStl.load env fs filename wrl = some res) (hs : res.success = true) :
    ∃ (path text name : String) (recs : List (Face String)) (faces : List (Face F))
      (more : List String),
      filename = some path ∧ fs.fopenRead path = some text ∧
      env.scan text = "solid" :: name :: (recordTokens recs ++ "endsolid" :: more) ∧
      recs.map (Face.parse env) = faces.map some ∧
      res = ⟨true, LoaderStl.link ((wrl.clear).setUrl "")
        ((IndexedFaceSet.fresh F).pushFaces faces), [], 1, 1⟩ := by
  unfold LoaderStl.load at h
  cases filename with
  | none => simp at h; subst h; simp at hs
  | some path =>
    simp only at h
    split at h
    · simp at h; subst h; simp at hs
    · rename_i text hopen
      split at h
      · simp at h; subst h; simp at hs
      · rename_i t1 h1
        split at h
        · simp at h; subst h; simp at hs
        · rename_i t2 h2
          obtain ⟨r1, _⟩ := Tokenizer.expecting_true h1
          have r2 : t1.rest = t2.cur :: t2.rest := by
            obtain ⟨xs, c⟩ := t1
            cases xs with
            | nil => simp at h2
            | cons x xs => simp at h2; subst h2; rfl
          split at h
          · cases h
          · rename_i ifs1 hl
            obtain ⟨recs, faces, more, e1, e2, e3⟩ := LoaderStl.faceLoop_ok env _ _ _ _ hl
            refine ⟨path, text, t2.cur, recs, faces, more, rfl, hopen, ?_, e2, ?_⟩
            · have : (TokenizerFile env text).rest = env.scan text := rfl
              rw [← this, r1, r2, e1]
            · simp at h
              subst h
              simp [e3, IndexedFaceSet.fresh]
          · simp at h; subst h; simp at hs

/-- The mesh container of an accepted stream with records `faces`. -/
theorem IndexedFaceSet.fresh_pushFaces {F : Type} (faces : List (Face F)) :
    (IndexedFaceSet.fresh F).pushFaces faces =
      { name := "", coordIndex := triangleIndices 0 faces.length, coord := coordsOf faces,
        normal := normalsOf faces, normalPerVertex := false } := by
  have h1 := IndexedFaceSet.pushFaces_coord faces (IndexedFaceSet.fresh F)
  have h2 := IndexedFaceSet.pushFaces_normal faces (IndexedFaceSet.fresh F)
  have h3 := IndexedFaceSet.pushFaces_coordIndex faces (IndexedFaceSet.fresh F)
  have h4 := IndexedFaceSet.pushFaces_flags faces (IndexedFaceSet.fresh F)
  generalize (IndexedFaceSet.fresh F).pushFaces faces = m at h1 h2 h3 h4
  obtain ⟨a, b, c, d, e⟩ := m
  simp [IndexedFaceSet.fresh] at h1 h2 h3 h4
  simp [h1, h2, h3, h4]

/-! ## Index lists of imported meshes -/

theorem triangleIndices_getElem :
    ∀ (n k i : Nat), i < n →
      (triangleIndices k n)[4 * i]? = some ((k : Int) + 3 * (i : Int)) ∧
      (triangleIndices k n)[4 * i + 1]? = some ((k : Int) + 3 * (i : Int) + 1) ∧
      (triangleIndices k n)[4 * i + 2]? = some ((k : Int) + 3 * (i : Int) + 2) ∧
      (triangleIndices k n)[4 * i + 3]? = some (-1)
  | 0, _, _, h => by omega
  | n + 1, k, 0, _ => by simp [triangleIndices]
  | n + 1, k, i + 1, h => by
    obtain ⟨h0, h1, h2, h3⟩ := triangleIndices_getElem n (k + 3) i (by omega)
    have e0 : 4 * (i + 1) = 4 * i + 1 + 1 + 1 + 1 := by omega
    have e1 : 4 * (i + 1) + 1 = 4 * i + 1 + 1 + 1 + 1 + 1 := by omega
    have e2 : 4 * (i + 1) + 2 = 4 * i + 2 + 1 + 1 + 1 + 1 := by omega
    have e3 : 4 * (i + 1) + 3 = 4 * i + 3 + 1 + 1 + 1 + 1 := by omega
    have c : ((k + 3 : Nat) : Int) + 3 * (i : Int) = (k : Int) + 3 * ((i + 1 : Nat) : Int) := by
      push_cast; ring
    rw [c] at h0 h1 h2
    refine ⟨?_, ?_, ?_, ?_⟩
    · rw [e0]; simpa [triangleIndices] using h0
    · rw [e1]; simpa [triangleIndices] using h1
    · rw [e2]; simpa [triangleIndices] using h2
    · rw [e3]; simpa [triangleIndices] using h3

theorem triangleIndices_count (k n : Nat) : (triangleIndices k n).count (-1) = n := by
  induction n generalizing k with
  | zero => rfl
  | succ n ih =>
    have a0 : ((k : Int) == -1) = false := by simp
    have a1 : ((k : Int) + 1 == -1) = false := by simp; omega
    have a2 : ((k : Int) + 2 == -1) = false := by simp; omega
    simp [triangleIndices, List.count_cons, ih, a0, a1, a2]

theorem triangleIndices_runs (k n : Nat) :
    ∀ run ∈ sentinelRuns (triangleIndices k n), run.length = 3 := by
  induction n generalizing k with
  | zero => simp [sentinelRuns, sentinelRunsFrom, triangleIndices]
  | succ n ih =>
    have a0 : ((k : Int) == -1) = false := by simp
    have a1 : ((k : Int) + 1 == -1) = false := by simp; omega
    have a2 : ((k : Int) + 2 == -1) = false := by simp; omega
    intro run hrun
    simp only [sentinelRuns, triangleIndices, List.cons_append, List.nil_append,
      sentinelRunsFrom, a0, a1, a2, Bool.false_eq_true, if_false, beq_self_eq_true, if_true,
      List.mem_cons] at hrun
    rcases hrun with rfl | hrun
    · rfl
    · exact ih (k + 3) run hrun

theorem triangleIndices_isTriangleList (k n : Nat) :
    IndexedFaceSet.isTriangleList (triangleIndices k n) = true := by
  induction n generalizing k with
  | zero => rfl
  | succ n ih =>
    have a0 : ((k : Int) != -1) = true := by simp
    have a1 : ((k : Int) + 1 != -1) = true := by simp; omega
    have a2 : ((k : Int) + 2 != -1) = true := by simp; omega
    have ih3 := ih (k + 3)
    simp only [triangleIndices, List.cons_append, List.nil_append,
      IndexedFaceSet.isTriangleList, a0, a1, a2, beq_self_eq_true, Bool.and_self]
    simpa using ih3

/-! ## Properties of the importer -/

/-- C2: for an openable source whose token stream is `solid`, a name, `N` well-formed face
records and `endsolid`, `LoaderStl::load` succeeds and leaves one shape whose mesh has: as
coordinate sequence the `9 N` vertex scalars of the records in file order, nothing being
shared; as index list `[0,1,2,-1, 3,4,5,-1, ...]`, that is `3i, 3i+1, 3i+2, -1` at positions
`4i .. 4i+3` for every `i < N` and nothing else; as normal sequence the `3 N` normal scalars
of the records in file order. -/
theorem LoaderStl.load_mesh_arrays {F : Type} (env : Env F) (fs : FileSystem)
    (path text : String) (wrl : SceneGraph F) (name : String) (recs : List (Face String))
    (faces : List (Face F)) (more : List String)
    (hopen : fs.fopenRead path = some text)
    (hscan : env.scan text = "solid" :: name :: (recordTokens recs ++ "endsolid" :: more))
    (hparse : recs.map (Face.parse env) = faces.map some) :
    ∃ (res : LoadResult F) (shape : Shape F) (ifs : IndexedFaceSet F),
      LoaderStl.load env fs (some path) wrl = some res ∧ res.success = true ∧
      res.wrl.children = [Node.shape shape] ∧ shape.geometry = .indexedFaceSet ifs ∧
      faces.length = recs.length ∧
      ifs.coord = coordsOf faces ∧ ifs.coord.length = 9 * recs.length ∧
      ifs.coordIndex = triangleIndices 0 recs.length ∧
      ifs.coordIndex.length = 4 * recs.length ∧
      (∀ i, i < recs.length →
        ifs.coordIndex[4 * i]? = some (3 * (i : Int)) ∧
        ifs.coordIndex[4 * i + 1]? = some (3 * (i : Int) + 1) ∧
        ifs.coordIndex[4 * i + 2]? = some (3 * (i : Int) + 2) ∧
        ifs.coordIndex[4 * i + 3]? = some (-1)) ∧
      ifs.normal = normalsOf faces ∧ ifs.normal.length = 3 * recs.length := by
  have hlen : faces.length = recs.length := by
    have := congrArg List.length hparse
    simpa using this.symm
  refine ⟨_, LoaderStl.newShape ((IndexedFaceSet.fresh F).pushFaces faces),
    (IndexedFaceSet.fresh F).pushFaces faces,
    LoaderStl.load_accepted env fs path text wrl name recs faces more hopen hscan
    hparse, rfl, ?_, rfl, hlen, ?_⟩
  · simp [LoaderStl.link, SceneGraph.addChild, SceneGraph.setUrl, SceneGraph.clear]
  · rw [IndexedFaceSet.fresh_pushFaces, hlen]
    refine ⟨rfl, ?_, rfl, triangleIndices_length _ _, ?_, rfl, ?_⟩
    · show (coordsOf faces).length = 9 * recs.length
      rw [coordsOf_length, hlen]
    · intro i hi
      have h := triangleIndices_getElem recs.length 0 i hi
      simpa using h
    · show (normalsOf faces).length = 3 * recs.length
      rw [normalsOf_length, hlen]

/-- C2, on the one-face file of the concrete scenario: coordinate sequence
`[0,0,0, 1,0,0, 0,1,0]`, index list `[0,1,2,-1]`, normal sequence `[0,0,1]`. -/
theorem LoaderStl.load_mesh_arrays_witness :
    Example.cubeFs.fopenRead "cube.stl" = some Example.cubeText ∧
    Example.env.scan Example.cubeText
      = "solid" :: "cube" :: (recordTokens [Example.cubeRecord] ++ "endsolid" :: ["cube"]) ∧
    [Example.cubeRecord].map (Face.parse Example.env) = [Example.cubeFace].map some ∧
    ∃ (res : LoadResult Int) (shape : Shape Int) (ifs : IndexedFaceSet Int),
      LoaderStl.load Example.env Example.cubeFs (some "cube.stl") Example.emptyScene = some res ∧
      res.success = true ∧
      res.wrl.children = [Node.shape shape] ∧ shape.geometry = .indexedFaceSet ifs ∧
      ifs.coord = [0, 0, 0, 1, 0, 0, 0, 1, 0] ∧ ifs.coordIndex = [0, 1, 2, -1] ∧
      ifs.normal = [0, 0, 1] := by
  refine ⟨by decide, by decide, by decide, ?_⟩
  obtain ⟨res, shape, ifs, h1, h2, h3, h4, _, h5, _, h6, _, _, h7, _⟩ :=
    LoaderStl.load_mesh_arrays Example.env Example.cubeFs "cube.stl" Example.cubeText
      Example.emptyScene "cube" [Example.cubeRecord] [Example.cubeFace] ["cube"]
      (by decide) (by decide) (by decide)
  exact ⟨res, shape, ifs, h1, h2, h3, h4, h5, h6, h7⟩

/-- C3: in every mesh a successful `LoaderStl::load` produces, with `numberOfFaces` the number
of sentinels `-1` of the index list, `len(coord) = 3 * (len(coordIndex) - numberOfFaces)`,
`len(normal) = 3 * numberOfFaces`, and every maximal run of non-sentinel entries of the index
list has length exactly 3. -/
theorem LoaderStl.load_mesh_invariants {F : Type} (env : Env F) (fs : FileSystem)
    (filename : Option String) (wrl : SceneGraph F) (res : LoadResult F)
    (h : LoaderStl.load env fs filename wrl = some res) (hs : res.success = true) :
    ∃ (shape : Shape F) (ifs : IndexedFaceSet F),
      res.wrl.children = [Node.shape shape] ∧ shape.geometry = .indexedFaceSet ifs ∧
      ifs.coord.length = 3 * (ifs.coordIndex.length - ifs.coordIndex.count (-1)) ∧
      ifs.normal.length = 3 * ifs.coordIndex.count (-1) ∧
      ∀ run ∈ sentinelRuns ifs.coordIndex, run.length = 3 := by
  obtain ⟨path, text, name, recs, faces, more, _, _, _, _, hres⟩ :=
    LoaderStl.load_success env fs filename wrl res h hs
  subst hres
  refine ⟨LoaderStl.newShape ((IndexedFaceSet.fresh F).pushFaces faces),
    (IndexedFaceSet.fresh F).pushFaces faces, ?_, rfl, ?_⟩
  · simp [LoaderStl.link, SceneGraph.addChild, SceneGraph.setUrl, SceneGraph.clear]
  · rw [IndexedFaceSet.fresh_pushFaces]
    simp only [triangleIndices_count, triangleIndices_length, coordsOf_length, normalsOf_length]
    exact ⟨by omega, trivial, triangleIndices_runs _ _⟩

/-- C3 on the one-face file: the import succeeds, so the invariants hold of its mesh. -/
theorem LoaderStl.load_mesh_invariants_witness :
    (LoaderStl.load Example.env Example.cubeFs (some "cube.stl") Example.emptyScene
        = some Example.cubeLoaded ∧ Example.cubeLoaded.success = true) ∧
    ∃ (shape : Shape Int) (ifs : IndexedFaceSet Int),
      Example.cubeLoaded.wrl.children = [Node.shape shape] ∧
      shape.geometry = .indexedFaceSet ifs ∧
      ifs.coord.length = 3 * (ifs.coordIndex.length - ifs.coordIndex.count (-1)) ∧
      ifs.normal.length = 3 * ifs.coordIndex.count (-1) ∧
      ∀ run ∈ sentinelRuns ifs.coordIndex, run.length = 3 :=
  ⟨⟨by decide, rfl⟩,
   LoaderStl.load_mesh_invariants Example.env Example.cubeFs (some "cube.stl")
     Example.emptyScene Example.cubeLoaded (by decide) rfl⟩

/-! ## Streams the importer rejects -/

theorem Face.parse_all {F : Type} (env : Env F) :
    ∀ (recs : List (Face String)), (∀ r ∈ recs, (r.parse env).isSome = true) →
      ∃ faces : List (Face F), recs.map (Face.parse env) = faces.map some
  | [], _ => ⟨[], rfl⟩
  | r :: rs, h => by
    obtain ⟨fs, hfs⟩ := Face.parse_all env rs (fun x hx => h x (List.mem_cons_of_mem _ hx))
    have hr := h r (List.mem_cons_self _ _)
    obtain ⟨f, hf⟩ := Option.isSome_iff_exists.mp hr
    exact ⟨f :: fs, by simp [hf, hfs]⟩

theorem Face.parse_each {F : Type} (env : Env F) (recs : List (Face String))
    (faces : List (Face F)) (h : recs.map (Face.parse env) = faces.map some) :
    ∀ r ∈ recs, (r.parse env).isSome = true := by
  intro r hr
  have hm : r.parse env ∈ recs.map (Face.parse env) := List.mem_map_of_mem _ hr
  rw [h] at hm
  obtain ⟨f, _, hf⟩ := List.mem_map.mp hm
  rw [← hf]
  rfl

theorem LoaderStl.faceLoop_end {F : Type} (env : Env F) (m : Nat) (c : String)
    (ifs : IndexedFaceSet F) :
    LoaderStl.faceLoop env (m + 1) (Tokenizer.mk [] c) ifs
      = some (.error "expected content", ifs) := by
  simp [LoaderStl.faceLoop]

theorem LoaderStl.faceLoop_stray {F : Type} (env : Env F) (m : Nat) (x : String)
    (xs : List String) (c : String) (ifs : IndexedFaceSet F)
    (h1 : x ≠ "facet") (h2 : x ≠ "endsolid") :
    LoaderStl.faceLoop env (m + 1) (Tokenizer.mk (x :: xs) c) ifs
      = some (.error "expected token: \"facet\"", ifs) := by
  simp [LoaderStl.faceLoop, Tokenizer.equals, h1, h2]

theorem LoaderStl.faceLoop_bad_face {F : Type} (env : Env F) (m : Nat) (ys : List String)
    (c e : String) (ifs : IndexedFaceSet F)
    (h : LoaderStl.parse_face env (Tokenizer.mk ys "facet") = .error e) :
    LoaderStl.faceLoop env (m + 1) (Tokenizer.mk ("facet" :: ys) c) ifs
      = some (.error e, ifs) := by
  simp [LoaderStl.faceLoop, Tokenizer.equals, h]

/-- With fewer than twenty tokens behind `facet`, `parse_face` throws. -/
theorem LoaderStl.parse_face_short {F : Type} (env : Env F) (ys : List String) (c : String)
    (h : ys.length < 20) : ∃ e, LoaderStl.parse_face env (Tokenizer.mk ys c) = .error e := by
  cases hp : LoaderStl.parse_face env (Tokenizer.mk ys c) with
  | error e => exact ⟨e, rfl⟩
  | ok v =>
    obtain ⟨f, t1⟩ := v
    obtain ⟨r, hr, _⟩ := LoaderStl.parse_face_ok hp
    have hl := congrArg List.length hr
    simp [Face.body] at hl
    omega

/-- C4: on an openable source `LoaderStl::load` returns success exactly when the token stream
is `solid`, one arbitrary token, zero or more complete face records, and `endsolid` (whatever
follows `endsolid` is not read).  In particular, after `solid`, a name and any number of
complete records, end of input or a token other than `facet` and `endsolid` makes `load`
return failure. -/
theorem LoaderStl.load_success_iff {F : Type} (env : Env F) (fs : FileSystem)
    (path text : String) (wrl : SceneGraph F) (hopen : fs.fopenRead path = some text) :
    ((LoaderStl.load env fs (some path) wrl).map (fun res => res.success) = some true
      ↔ Accepted env (env.scan text)) ∧
    (∀ (name : String) (recs : List (Face String)) (tail : List String),
      env.scan text = "solid" :: name :: (recordTokens recs ++ tail) →
      (∀ r ∈ recs, (r.parse env).isSome = true) →
      (tail = [] ∨ ∃ x xs, tail = x :: xs ∧ x ≠ "facet" ∧ x ≠ "endsolid") →
      (LoaderStl.load env fs (some path) wrl).map (fun res => res.success) = some false) := by
  refine ⟨⟨?_, ?_⟩, ?_⟩
  · intro h
    obtain ⟨res, hres, hs⟩ := Option.map_eq_some'.mp h
    obtain ⟨path1, text1, name, recs, faces, more, hp, ho, hscan, hparse, _⟩ :=
      LoaderStl.load_success env fs (some path) wrl res hres hs
    cases hp
    rw [hopen] at ho
    cases ho
    exact ⟨name, recs, more, hscan, Face.parse_each env recs faces hparse⟩
  · rintro ⟨name, recs, more, hscan, hall⟩
    obtain ⟨faces, hparse⟩ := Face.parse_all env recs hall
    rw [LoaderStl.load_accepted env fs path text wrl name recs faces more hopen hscan hparse]
    rfl
  · intro name recs tail hscan hall htail
    obtain ⟨faces, hparse⟩ := Face.parse_all env recs hall
    rw [LoaderStl.load_records env fs path text wrl name recs faces tail hopen hscan hparse]
    rcases htail with rfl | ⟨x, xs, rfl, h1, h2⟩
    · rw [LoaderStl.faceLoop_end]
      rfl
    · rw [LoaderStl.faceLoop_stray env _ x xs _ _ h1 h2]
      rfl

/-- C4 on the one-face file. -/
theorem LoaderStl.load_success_iff_witness :
    Example.cubeFs.fopenRead "cube.stl" = some Example.cubeText ∧
    ((LoaderStl.load Example.env Example.cubeFs (some "cube.stl") Example.emptyScene).map
        (fun res => res.success) = some true
      ↔ Accepted Example.env (Example.env.scan Example.cubeText)) ∧
    (∀ (name : String) (recs : List (Face String)) (tail : List String),
      Example.env.scan Example.cubeText = "solid" :: name :: (recordTokens recs ++ tail) →
      (∀ r ∈ recs, (r.parse Example.env).isSome = true) →
      (tail = [] ∨ ∃ x xs, tail = x :: xs ∧ x ≠ "facet" ∧ x ≠ "endsolid") →
      (LoaderStl.load Example.env Example.cubeFs (some "cube.stl") Example.emptyScene).map
        (fun res => res.success) = some false) :=
  ⟨by decide,
   LoaderStl.load_success_iff Example.env Example.cubeFs "cube.stl" Example.cubeText
     Example.emptyScene (by decide)⟩

/-- C5: when the token stream is `solid`, a name, any number of complete face records and then
the first `k < 21` tokens of one more record (`k = 0`: the input ends where a record or
`endsolid` should start; `k > 0`: the input ends inside a record), `LoaderStl::load` returns
failure. -/
theorem LoaderStl.load_truncated {F : Type} (env : Env F) (fs : FileSystem)
    (path text : String) (wrl : SceneGraph F) (name : String) (recs : List (Face String))
    (r : Face String) (k : Nat) (hk : k < 21)
    (hopen : fs.fopenRead path = some text)
    (hscan : env.scan text = "solid" :: name :: (recordTokens recs ++ r.tokens.take k))
    (hall : ∀ r ∈ recs, (r.parse env).isSome = true) :
    (LoaderStl.load env fs (some path) wrl).map (fun res => res.success) = some false := by
  obtain ⟨faces, hparse⟩ := Face.parse_all env recs hall
  rw [LoaderStl.load_records env fs path text wrl name recs faces _ hopen hscan hparse]
  cases k with
  | zero =>
    simp only [List.take_zero]
    rw [LoaderStl.faceLoop_end]
    rfl
  | succ j =>
    have hlen : (r.body.take j).length < 20 := by
      simp [Face.body]
      omega
    obtain ⟨e, he⟩ := LoaderStl.parse_face_short env (r.body.take j) "facet" hlen
    simp only [Face.tokens, List.take_succ_cons]
    rw [LoaderStl.faceLoop_bad_face env _ _ _ e _ he]
    rfl

/-- C5 on the one-face file cut off after its first vertex. -/
theorem LoaderStl.load_truncated_witness :
    (11 < 21 ∧ Example.damagedFs.fopenRead "truncated.stl" = some Example.truncatedText ∧
      Example.env.scan Example.truncatedText
        = "solid" :: "cube" :: (recordTokens [] ++ Example.cubeRecord.tokens.take 11) ∧
      ∀ r ∈ ([] : List (Face String)), (r.parse Example.env).isSome = true) ∧
    (LoaderStl.load Example.env Example.damagedFs (some "truncated.stl") Example.emptyScene).map
      (fun res => res.success) = some false :=
  ⟨⟨by decide, by decide, by decide, by simp⟩,
   LoaderStl.load_truncated Example.env Example.damagedFs "truncated.stl" Example.truncatedText
     Example.emptyScene "cube" [] Example.cubeRecord 11 (by decide) (by decide) (by decide)
     (by simp)⟩

/-! ## A face record with a structural token missing -/

/-- The message thrown when the literal token `kw` is expected and not found. -/
theorem LoaderStl.expected_token_eq :
    "expected token: \"" ++ "outer" ++ "\"" = "expected token: \"outer\"" ∧
    "expected token: \"" ++ "loop" ++ "\"" = "expected token: \"loop\"" ∧
    "expected token: \"" ++ "endloop" ++ "\"" = "expected token: \"endloop\"" ∧
    "expected token: \"" ++ "endfacet" ++ "\"" = "expected token: \"endfacet\"" := by
  decide

/-- When the tokens of a well-formed record are followed, at the position of one of the
literals `outer`, `loop`, `endloop`, `endfacet`, by anything but that literal, `parse_face`
throws the message naming it. -/
theorem LoaderStl.parse_face_missing {F : Type} (env : Env F) (r : Face String) (f : Face F)
    (kw : String) (k : Nat) (tail : List String) (cur : String)
    (hr : r.parse env = some f)
    (hkw : (kw, k) ∈ [("outer", 4), ("loop", 5), ("endloop", 18), ("endfacet", 19)])
    (htail : tail.head? ≠ some kw) :
    LoaderStl.parse_face env (Tokenizer.mk (r.body.take k ++ tail) cur)
      = .error ("expected token: \"" ++ kw ++ "\"") := by
  obtain ⟨hn, h1, h2, h3⟩ := Face.parse_some hr
  have hn1 : Vec3f.parse env ⟨r.n.x, r.n.y, r.n.z⟩ = some f.n := hn
  obtain ⟨e1, e2, e3, e4⟩ := LoaderStl.expected_token_eq
  simp only [List.mem_cons, Prod.mk.injEq, List.mem_singleton, List.not_mem_nil, or_false] at hkw
  rcases hkw with ⟨rfl, rfl⟩ | ⟨rfl, rfl⟩ | ⟨rfl, rfl⟩ | ⟨rfl, rfl⟩
  · rw [e1]
    cases tail with
    | nil =>
      simp [LoaderStl.parse_face, Face.body, Tokenizer.getVec3f_of_parse hn1]
    | cons x xs =>
      have hx : (x == "outer") = false := by simpa using htail
      simp [LoaderStl.parse_face, Face.body, Tokenizer.getVec3f_of_parse hn1, hx]
  · rw [e2]
    cases tail with
    | nil =>
      simp [LoaderStl.parse_face, Face.body, Tokenizer.getVec3f_of_parse hn1]
    | cons x xs =>
      have hx : (x == "loop") = false := by simpa using htail
      simp [LoaderStl.parse_face, Face.body, Tokenizer.getVec3f_of_parse hn1, hx]
  · rw [e3]
    cases tail with
    | nil =>
      simp [LoaderStl.parse_face, Face.body, Tokenizer.getVec3f_of_parse hn1,
        LoaderStl.parse_vertex_of_parse h1, LoaderStl.parse_vertex_of_parse h2,
        LoaderStl.parse_vertex_of_parse h3]
    | cons x xs =>
      have hx : (x == "endloop") = false := by simpa using htail
      simp [LoaderStl.parse_face, Face.body, Tokenizer.getVec3f_of_parse hn1,
        LoaderStl.parse_vertex_of_parse h1, LoaderStl.parse_vertex_of_parse h2,
        LoaderStl.parse_vertex_of_parse h3, hx]
  · rw [e4]
    cases tail with
    | nil =>
      simp [LoaderStl.parse_face, Face.body, Tokenizer.getVec3f_of_parse hn1,
        LoaderStl.parse_vertex_of_parse h1, LoaderStl.parse_vertex_of_parse h2,
        LoaderStl.parse_vertex_of_parse h3]
    | cons x xs =>
      have hx : (x == "endfacet") = false := by simpa using htail
      simp [LoaderStl.parse_face, Face.body, Tokenizer.getVec3f_of_parse hn1,
        LoaderStl.parse_vertex_of_parse h1, LoaderStl.parse_vertex_of_parse h2,
        LoaderStl.parse_vertex_of_parse h3, hx]

/-- C6: take the tokens of a well-formed face record up to the position of one of the literals
`outer`, `loop`, `endloop`, `endfacet` (positions 4, 5, 18, 19 behind `facet`), and let them be
followed by anything that does not start with that literal: the literal is missing, or another
token stands in its place.  Then `LoaderStl::parse_face` throws the message
`expected token: "<literal>"`, which contains the literal's name; and `LoaderStl::load`, on a
stream in which such a record follows `solid`, a name and any number of complete records,
returns failure and reports that message. -/
theorem LoaderStl.load_missing_keyword {F : Type} (env : Env F) (r : Face String) (f : Face F)
    (kw : String) (k : Nat) (tail : List String)
    (hr : r.parse env = some f)
    (hkw : (kw, k) ∈ [("outer", 4), ("loop", 5), ("endloop", 18), ("endfacet", 19)])
    (htail : tail.head? ≠ some kw) :
    (∀ cur : String, LoaderStl.parse_face env (Tokenizer.mk (r.body.take k ++ tail) cur)
      = .error ("expected token: \"" ++ kw ++ "\"")) ∧
    (∃ a b : String, "expected token: \"" ++ kw ++ "\"" = a ++ kw ++ b) ∧
    (∀ (fs : FileSystem) (path text : String) (wrl : SceneGraph F) (name : String)
        (recs : List (Face String)),
      fs.fopenRead path = some text →
      env.scan text
        = "solid" :: name :: (recordTokens recs ++ "facet" :: (r.body.take k ++ tail)) →
      (∀ r ∈ recs, (r.parse env).isSome = true) →
      ∃ res : LoadResult F,
        LoaderStl.load env fs (some path) wrl = some res ∧ res.success = false ∧
        res.stderr = [LoaderStl.report ("expected token: \"" ++ kw ++ "\"")]) := by
  refine ⟨fun cur => LoaderStl.parse_face_missing env r f kw k tail cur hr hkw htail,
    ⟨"expected token: \"", "\"", rfl⟩, ?_⟩
  intro fs path text wrl name recs hopen hscan hall
  obtain ⟨faces, hparse⟩ := Face.parse_all env recs hall
  rw [LoaderStl.load_records env fs path text wrl name recs faces _ hopen hscan hparse]
  rw [LoaderStl.faceLoop_bad_face env _ _ _ _ _
    (LoaderStl.parse_face_missing env r f kw k tail "facet" hr hkw htail)]
  exact ⟨_, rfl, rfl, rfl⟩

/-- C6 on the one-face file with `outer` left out: `loop` stands where `outer` is expected. -/
theorem LoaderStl.load_missing_keyword_witness :
    (Example.cubeRecord.parse Example.env = some Example.cubeFace ∧
      (("outer", 4) : String × Nat)
        ∈ [("outer", 4), ("loop", 5), ("endloop", 18), ("endfacet", 19)] ∧
      (Example.cubeRecord.body.drop 5).head? ≠ some "outer") ∧
    (∀ cur : String,
      LoaderStl.parse_face Example.env
          (Tokenizer.mk (Example.cubeRecord.body.take 4 ++ Example.cubeRecord.body.drop 5) cur)
        = .error ("expected token: \"" ++ "outer" ++ "\"")) ∧
    (∃ a b : String, "expected token: \"" ++ "outer" ++ "\"" = a ++ "outer" ++ b) ∧
    (∀ (fs : FileSystem) (path text : String) (wrl : SceneGraph Int) (name : String)
        (recs : List (Face String)),
      fs.fopenRead path = some text →
      Example.env.scan text
        = "solid" :: name :: (recordTokens recs ++ "facet" ::
            (Example.cubeRecord.body.take 4 ++ Example.cubeRecord.body.drop 5)) →
      (∀ r ∈ recs, (r.parse Example.env).isSome = true) →
      ∃ res : LoadResult Int,
        LoaderStl.load Example.env fs (some path) wrl = some res ∧ res.success = false ∧
        res.stderr = [LoaderStl.report ("expected token: \"" ++ "outer" ++ "\"")]) :=
  ⟨⟨by decide, by decide, by decide⟩,
   LoaderStl.load_missing_keyword Example.env Example.cubeRecord Example.cubeFace "outer" 4
     (Example.cubeRecord.body.drop 5) (by decide) (by decide) (by decide)⟩

/-! ## The corner table on a triangle list -/

theorem IndexedFaceSet.isTriangleList_cons (l : List Int)
    (h : IndexedFaceSet.isTriangleList l = true) (hne : l ≠ []) :
    ∃ a b c more, l = a :: b :: c :: (-1) :: more ∧ a ≠ -1 ∧ b ≠ -1 ∧ c ≠ -1 ∧
      IndexedFaceSet.isTriangleList more = true := by
  rcases l with _ | ⟨a, _ | ⟨b, _ | ⟨c, _ | ⟨d, more⟩⟩⟩⟩
  · exact absurd rfl hne
  · simp [IndexedFaceSet.isTriangleList] at h
  · simp [IndexedFaceSet.isTriangleList] at h
  · simp [IndexedFaceSet.isTriangleList] at h
  · simp [IndexedFaceSet.isTriangleList] at h
    obtain ⟨⟨⟨⟨h1, h2⟩, h3⟩, h4⟩, h5⟩ := h
    subst h4
    exact ⟨a, b, c, more, rfl, h1, h2, h3, h5⟩

/-- In a triangle list with a face `i`, that face is a block of three non-sentinel entries
at positions `4i, 4i+1, 4i+2` followed by a sentinel, and its first corner is `4i`. -/
theorem Faces.triangle_face :
    ∀ (i : Nat) (l : List Int) (pos : Nat),
      IndexedFaceSet.isTriangleList l = true → i < l.count (-1) →
      Faces.firstCornerFrom l pos i = ((pos + 4 * i : Nat) : Int) ∧
      ∃ a b c, l[4 * i]? = some a ∧ l[4 * i + 1]? = some b ∧ l[4 * i + 2]? = some c ∧
        l[4 * i + 3]? = some (-1) ∧ a ≠ -1 ∧ b ≠ -1 ∧ c ≠ -1 := by
  intro i
  induction i with
  | zero =>
    intro l pos h hi
    have hne : l ≠ [] := by
      rintro rfl
      simp at hi
    obtain ⟨a, b, c, more, rfl, ha, hb, hc, _⟩ := IndexedFaceSet.isTriangleList_cons l h hne
    exact ⟨by simp [Faces.firstCornerFrom], a, b, c, by simp, by simp, by simp, by simp,
      ha, hb, hc⟩
  | succ i ih =>
    intro l pos h hi
    have hne : l ≠ [] := by
      rintro rfl
      simp at hi
    obtain ⟨a, b, c, more, rfl, ha, hb, hc, hmore⟩ :=
      IndexedFaceSet.isTriangleList_cons l h hne
    have ha1 : (a == -1) = false := by simpa using ha
    have hb1 : (b == -1) = false := by simpa using hb
    have hc1 : (c == -1) = false := by simpa using hc
    have hcount : i < more.count (-1) := by
      simp [List.count_cons, ha1, hb1, hc1] at hi
      exact hi
    obtain ⟨h0, a1, b1, c1, g0, g1, g2, g3, n0, n1, n2⟩ := ih more (pos + 4) hmore hcount
    refine ⟨?_, a1, b1, c1, ?_, ?_, ?_, ?_, n0, n1, n2⟩
    · simp only [Faces.firstCornerFrom, ha1, hb1, hc1, Bool.false_eq_true, if_false,
        beq_self_eq_true, if_true]
      rw [h0]
      congr 1
      omega
    · have e : 4 * (i + 1) = 4 * i + 1 + 1 + 1 + 1 := by omega
      rw [e]; simpa using g0
    · have e : 4 * (i + 1) + 1 = 4 * i + 1 + 1 + 1 + 1 + 1 := by omega
      rw [e]; simpa using g1
    · have e : 4 * (i + 1) + 2 = 4 * i + 2 + 1 + 1 + 1 + 1 := by omega
      rw [e]; simpa using g2
    · have e : 4 * (i + 1) + 3 = 4 * i + 3 + 1 + 1 + 1 + 1 := by omega
      rw [e]; simpa using g3

/-- Between two neighbouring non-sentinel entries `getNextCorner` steps forward by one. -/
theorem Faces.getNextCorner_step (l : List Int) (p : Nat) (v w : Int)
    (hv : l[p]? = some v) (hw : l[p + 1]? = some w) (nv : v ≠ -1) (nw : w ≠ -1) :
    Faces.getNextCorner l (p : Int) = ((p + 1 : Nat) : Int) := by
  have hv1 : (v == -1) = false := by simpa using nv
  have hw1 : (w == -1) = false := by simpa using nw
  have h0 : ¬ ((p : Int) < 0) := by omega
  simp [Faces.getNextCorner, h0, hv, hw, hv1, hw1]

theorem Faces.getFaceVertex_at (l : List Int) (iF p : Nat) (v : Int) (hv : l[p]? = some v) :
    Faces.getFaceVertex l iF (p : Int) = v := by
  have h0 : ¬ ((p : Int) < 0) := by omega
  simp [Faces.getFaceVertex, h0, hv]

/-! ## The face loop of the exporter -/

/-- On a triangle list, the record written for face `i` is the text of `faceAt i`; the write
is undefined exactly when `faceAt i` does not exist. -/
theorem SaverStl.writeFace_eq {F : Type} (env : Env F) (ifs : IndexedFaceSet F) (i : Nat)
    (fp : String) (h : IndexedFaceSet.isTriangleList ifs.coordIndex = true)
    (hi : i < Faces.getNumberOfFaces ifs.coordIndex) :
    SaverStl.writeFace env ifs i fp = (ifs.faceAt i).map (fun f => fp ++ f.text env) := by
  obtain ⟨h0, a, b, c, g0, g1, g2, _, na, nb, nc⟩ :=
    Faces.triangle_face i ifs.coordIndex 0 h hi
  have c1 : Faces.getFaceFirstCorner ifs.coordIndex i = ((4 * i : Nat) : Int) := by
    rw [Faces.getFaceFirstCorner, h0]
    simp
  have c2 := Faces.getNextCorner_step ifs.coordIndex (4 * i) a b g0 g1 na nb
  have c3 := Faces.getNextCorner_step ifs.coordIndex (4 * i + 1) b c g1 g2 nb nc
  have v1 := Faces.getFaceVertex_at ifs.coordIndex i (4 * i) a g0
  have v2 := Faces.getFaceVertex_at ifs.coordIndex i (4 * i + 1) b g1
  have v3 := Faces.getFaceVertex_at ifs.coordIndex i (4 * i + 1 + 1) c g2
  simp only [SaverStl.writeFace, c1, c2, c3, v1, v2, v3, IndexedFaceSet.faceAt, g0, g1, g2]
  cases hn : readVec3f ifs.normal (i : Int) <;> cases ha : readVec3f ifs.coord a <;>
    cases hb : readVec3f ifs.coord b <;> cases hc : readVec3f ifs.coord c <;>
    simp [SaverStl.writeVertex, Face.text, String.append_assoc, ha, hb, hc]

/-- On a triangle list, the loop over `k` faces from face `i` appends the text of their
records; it is undefined exactly when one of the records does not exist. -/
theorem SaverStl.faceLoop_eq {F : Type} (env : Env F) (ifs : IndexedFaceSet F)
    (h : IndexedFaceSet.isTriangleList ifs.coordIndex = true) :
    ∀ (k i : Nat) (fp : String), i + k ≤ Faces.getNumberOfFaces ifs.coordIndex →
      SaverStl.faceLoop env ifs k i fp
        = (ifs.facesFrom k i).map (fun faces => fp ++ facesText env faces)
  | 0, i, fp, _ => by simp [SaverStl.faceLoop, IndexedFaceSet.facesFrom, facesText]
  | k + 1, i, fp, hk => by
    have ih := fun fp1 => SaverStl.faceLoop_eq env ifs h k (i + 1) fp1 (by omega)
    simp only [SaverStl.faceLoop, IndexedFaceSet.facesFrom,
      SaverStl.writeFace_eq env ifs i fp h (by omega)]
    cases hf : ifs.faceAt i with
    | none => simp
    | some f =>
      simp only [Option.map_some', ih]
      cases ifs.facesFrom k (i + 1) with
      | none => simp
      | some fs => simp [facesText, String.append_assoc]

theorem IndexedFaceSet.facesFrom_getElem {F : Type} (ifs : IndexedFaceSet F) :
    ∀ (k i : Nat) (faces : List (Face F)), ifs.facesFrom k i = some faces →
      faces.length = k ∧ ∀ j, j < k → ifs.faceAt (i + j) = faces[j]?
  | 0, i, faces, h => by
    simp [IndexedFaceSet.facesFrom] at h
    subst h
    simp
  | k + 1, i, faces, h => by
    unfold IndexedFaceSet.facesFrom at h
    split at h
    · rename_i f fs hf hfs
      cases h
      obtain ⟨hl, hj⟩ := IndexedFaceSet.facesFrom_getElem ifs k (i + 1) fs hfs
      refine ⟨by simp [hl], ?_⟩
      intro j hjk
      cases j with
      | zero => simpa using hf
      | succ j =>
        have := hj j (by omega)
        have e : i + (j + 1) = i + 1 + j := by omega
        rw [e, this]
        simp
    · cases h

/-- After `fclose` the file holds the text written. -/
theorem FileSystem.fopenRead_fclose (fs : FileSystem) (path text : String) :
    (fs.fclose path text).fopenRead path = some text := by
  simp [FileSystem.fclose, FileSystem.fopenRead, List.lookup]

/-- The exporter on a scene graph of the required shape whose destination opens. -/
theorem SaverStl.save_valid {F : Type} (env : Env F) (fs : FileSystem) (path : String)
    (wrl : SceneGraph F) (shape : Shape F) (ifs : IndexedFaceSet F)
    (hc : wrl.children = [Node.shape shape]) (hg : shape.geometry = .indexedFaceSet ifs)
    (ht : ifs.isTriangleMesh = true) (hn : ifs.normalPerVertex = false)
    (ho : fs.fopenWrite path = true) :
    SaverStl.save env fs (some path) wrl =
      (ifs.facesFrom (Faces.getNumberOfFaces ifs.coordIndex) 0).map (fun faces =>
        (true, fs.fclose path
          ("solid " ++ path ++ "\n" ++ facesText env faces ++ "endsolid " ++ path ++ "\n"))) := by
  have hl := SaverStl.faceLoop_eq env ifs ht (Faces.getNumberOfFaces ifs.coordIndex) 0
    ("solid " ++ path ++ "\n") (by omega)
  simp only [SaverStl.save, SceneGraph.getNumberOfChildren, hc, hg, ht, hn, ho, hl]
  cases ifs.facesFrom (Faces.getNumberOfFaces ifs.coordIndex) 0 with
  | none => simp
  | some faces => simp [String.append_assoc]

/-- An export that returns success was given a file name and a scene graph of the required
shape, and its destination opened. -/
theorem SaverStl.save_success {F : Type} (env : Env F) (fs fs1 : FileSystem)
    (filename : Option String) (wrl : SceneGraph F)
    (h : SaverStl.save env fs filename wrl = some (true, fs1)) :
    ∃ (path : String) (shape : Shape F) (ifs : IndexedFaceSet F),
      filename = some path ∧ wrl.children = [Node.shape shape] ∧
      shape.geometry = .indexedFaceSet ifs ∧ ifs.isTriangleMesh = true ∧
      ifs.normalPerVertex = false ∧ fs.fopenWrite path = true := by
  unfold SaverStl.save at h
  cases filename with
  | none => simp at h
  | some path =>
    simp only at h
    split at h
    · simp at h
    · rename_i hlen
      split at h
      · simp at h
      · rename_i child rest hch
        have hrest : rest = [] := by
          simp [SceneGraph.getNumberOfChildren, hch] at hlen
          exact hlen
        subst hrest
        split at h
        · simp at h
        · rename_i shape
          split at h
          · simp at h
          · simp at h
          · rename_i ifs hg
            split at h
            · simp at h
            · rename_i ht
              split at h
              · simp at h
              · rename_i hn
                split at h
                · simp at h
                · rename_i ho
                  exact ⟨path, shape, ifs, rfl, hch, hg, by simpa using ht, by simpa using hn,
                    by simpa using ho⟩

/-! ## Properties of the exporter -/

/-- The amended C7 on further scene graphs: one whose mesh holds a quad, one whose shape holds
a geometry node of another kind, one with two children, and the null file name. -/
theorem SaverStl.save_rejects_examples :
    (SaverStl.save Example.env Example.blankFs (some "out.stl")
      (Example.sceneOf (.indexedFaceSet Example.quadMesh))).map Prod.fst = some false ∧
    (SaverStl.save Example.env Example.blankFs (some "out.stl")
      (Example.sceneOf (.otherGeometry "lines"))).map Prod.fst = some false ∧
    (SaverStl.save Example.env Example.blankFs (some "out.stl")
      Example.usedScene).map Prod.fst = some false ∧
    (SaverStl.save Example.env Example.blankFs none
      (Example.sceneOf (.indexedFaceSet Example.cubeMesh))).map Prod.fst = some false := by
  decide

/-- C8: when the scene graph fails the shape validation of `SaverStl::save` (child count,
child that is not a `Shape`, geometry node that is not an `IndexedFaceSet`, mesh that is not
a triangle mesh, per-vertex normals), the call returns failure and the file system after the
call is the file system before it: the destination is neither opened nor written.  (A shape
without geometry is not rejected, the call has no defined outcome on it.) -/
theorem SaverStl.save_rejects_clean {F : Type} (env : Env F) (fs : FileSystem)
    (filename : Option String) (wrl : SceneGraph F)
    (h : wrl.getNumberOfChildren ≠ 1 ∨
      (∃ child, wrl.children = [child] ∧ child.isShape = false) ∨
      (∃ shape, wrl.children = [Node.shape shape] ∧ shape.geometry ≠ .unset ∧
        shape.geometry.isIndexedFaceSet = false) ∨
      (∃ shape ifs, wrl.children = [Node.shape shape] ∧
        shape.geometry = .indexedFaceSet ifs ∧
        (ifs.isTriangleMesh = false ∨ ifs.normalPerVertex = true))) :
    SaverStl.save env fs filename wrl = some (false, fs) := by
  cases filename with
  | none => rfl
  | some path =>
    rcases h with h | ⟨child, hc, hs⟩ | ⟨shape, hc, hu, hg⟩ | ⟨shape, ifs, hc, hg, hb⟩
    · simp [SaverStl.save, h]
    · cases child with
      | shape s => simp [Node.isShape] at hs
      | otherNode nm => simp [SaverStl.save, SceneGraph.getNumberOfChildren, hc]
    · cases hgeo : shape.geometry with
      | indexedFaceSet ifs => simp [hgeo, Geometry.isIndexedFaceSet] at hg
      | otherGeometry nm => simp [SaverStl.save, SceneGraph.getNumberOfChildren, hc, hgeo]
      | unset => exact absurd hgeo hu
    · rcases hb with hb | hb
      · simp [SaverStl.save, SceneGraph.getNumberOfChildren, hc, hg, hb]
      · simp only [SaverStl.save, SceneGraph.getNumberOfChildren, hc, hg, hb]
        cases ifs.isTriangleMesh <;> simp

/-- C8 on a scene graph without children, with a destination that could be opened. -/
theorem SaverStl.save_rejects_clean_witness :
    (Example.emptyScene.getNumberOfChildren ≠ 1 ∨
      (∃ child, Example.emptyScene.children = [child] ∧ child.isShape = false) ∨
      (∃ shape, Example.emptyScene.children = [Node.shape shape] ∧ shape.geometry ≠ .unset ∧
        shape.geometry.isIndexedFaceSet = false) ∨
      (∃ shape ifs, Example.emptyScene.children = [Node.shape shape] ∧
        shape.geometry = .indexedFaceSet ifs ∧
        (ifs.isTriangleMesh = false ∨ ifs.normalPerVertex = true))) ∧
    SaverStl.save Example.env Example.cubeFs (some "cube.stl") Example.emptyScene
      = some (false, Example.cubeFs) :=
  ⟨Or.inl (by decide),
   SaverStl.save_rejects_clean Example.env Example.cubeFs (some "cube.stl") Example.emptyScene
     (Or.inl (by decide))⟩

/-- C9: let `SaverStl::save` accept a scene graph whose mesh has an index list made of blocks
of three non-sentinel entries and a sentinel (vertices may be shared between faces).  Then
the file written is `solid <filename>`, one record per face `i = 0 .. numberOfFaces-1` in
increasing order, and `endsolid <filename>`; the record of face `i` has as normal
`(normal[3i], normal[3i+1], normal[3i+2])` and as vertex lines the coordinate triples at the
vertex indices `coordIndex[4i]`, `coordIndex[4i+1]`, `coordIndex[4i+2]`, in that order. -/
theorem SaverStl.save_body {F : Type} (env : Env F) (fs fs1 : FileSystem)
    (filename : Option String) (wrl : SceneGraph F) (shape : Shape F) (ifs : IndexedFaceSet F)
    (hc : wrl.children = [Node.shape shape]) (hg : shape.geometry = .indexedFaceSet ifs)
    (ht : IndexedFaceSet.isTriangleList ifs.coordIndex = true)
    (h : SaverStl.save env fs filename wrl = some (true, fs1)) :
    ∃ (path : String) (faces : List (Face F)),
      filename = some path ∧
      faces.length = Faces.getNumberOfFaces ifs.coordIndex ∧
      (∀ i, i < Faces.getNumberOfFaces ifs.coordIndex → ifs.faceAt i = faces[i]?) ∧
      fs1.fopenRead path
        = some ("solid " ++ path ++ "\n" ++ facesText env faces ++ "endsolid " ++ path ++ "\n") := by
  obtain ⟨path, shape1, ifs1, rfl, hc1, hg1, _, hn, ho⟩ :=
    SaverStl.save_success env fs fs1 filename wrl h
  rw [hc] at hc1
  cases hc1
  rw [hg] at hg1
  cases hg1
  rw [SaverStl.save_valid env fs path wrl shape ifs hc hg ht hn ho] at h
  cases hf : ifs.facesFrom (Faces.getNumberOfFaces ifs.coordIndex) 0 with
  | none => simp [hf] at h
  | some faces =>
    simp only [hf, Option.map_some', Option.some.injEq, Prod.mk.injEq, true_and] at h
    obtain ⟨hl, hj⟩ := IndexedFaceSet.facesFrom_getElem ifs _ 0 faces hf
    refine ⟨path, faces, rfl, hl, ?_, ?_⟩
    · intro i hi
      simpa using hj i hi
    · rw [← h]
      exact FileSystem.fopenRead_fclose _ _ _

set_option maxRecDepth 100000 in
/-- C9 on a mesh of two triangles with two shared vertices. -/
theorem SaverStl.save_body_witness :
    ((Example.sceneOf (.indexedFaceSet Example.sharedMesh)).children
        = [Node.shape (LoaderStl.newShape Example.sharedMesh)] ∧
      (LoaderStl.newShape Example.sharedMesh).geometry = .indexedFaceSet Example.sharedMesh ∧
      IndexedFaceSet.isTriangleList Example.sharedMesh.coordIndex = true ∧
      SaverStl.save Example.env Example.blankFs (some "out.stl")
        (Example.sceneOf (.indexedFaceSet Example.sharedMesh))
        = some (true, Example.sharedSaved)) ∧
    ∃ (path : String) (faces : List (Face Int)),
      (some "out.stl" : Option String) = some path ∧
      faces.length = Faces.getNumberOfFaces Example.sharedMesh.coordIndex ∧
      (∀ i, i < Faces.getNumberOfFaces Example.sharedMesh.coordIndex →
        Example.sharedMesh.faceAt i = faces[i]?) ∧
      Example.sharedSaved.fopenRead path
        = some ("solid " ++ path ++ "\n" ++ facesText Example.env faces
            ++ "endsolid " ++ path ++ "\n") :=
  ⟨⟨by decide, by decide, by decide, by decide⟩,
   SaverStl.save_body Example.env Example.blankFs Example.sharedSaved (some "out.stl")
     (Example.sceneOf (.indexedFaceSet Example.sharedMesh))
     (LoaderStl.newShape Example.sharedMesh) Example.sharedMesh
     (by decide) (by decide) (by decide) (by decide)⟩

/-! ## Exporting an imported mesh -/

theorem readVec3f_append {F : Type} (a : List F) (x y z : F) (b : List F) (v : Nat)
    (ha : a.length = 3 * v) :
    readVec3f (a ++ x :: y :: z :: b) (v : Int) = some ⟨x, y, z⟩ := by
  have h0 : ¬ ((v : Int) < 0) := by omega
  have e0 : (a ++ x :: y :: z :: b)[3 * v]? = some x := by
    rw [List.getElem?_append_right (by omega)]
    simp [ha]
  have e1 : (a ++ x :: y :: z :: b)[3 * v + 1]? = some y := by
    rw [List.getElem?_append_right (by omega)]
    simp [ha]
  have e2 : (a ++ x :: y :: z :: b)[3 * v + 2]? = some z := by
    rw [List.getElem?_append_right (by omega)]
    simp [ha]
  simp [readVec3f, h0, e0, e1, e2]

theorem coordsOf_append {F : Type} (xs ys : List (Face F)) :
    coordsOf (xs ++ ys) = coordsOf xs ++ coordsOf ys := by
  induction xs with
  | nil => rfl
  | cons f fs ih => simp [coordsOf, ih]

theorem normalsOf_append {F : Type} (xs ys : List (Face F)) :
    normalsOf (xs ++ ys) = normalsOf xs ++ normalsOf ys := by
  induction xs with
  | nil => rfl
  | cons f fs ih => simp [normalsOf, ih]

/-- In the mesh imported from the records `pre ++ f :: suf`, the face numbered `pre.length`
is `f`. -/
theorem IndexedFaceSet.faceAt_loaded {F : Type} (pre : List (Face F)) (f : Face F)
    (suf : List (Face F)) :
    ((IndexedFaceSet.fresh F).pushFaces (pre ++ f :: suf)).faceAt pre.length = some f := by
  rw [IndexedFaceSet.fresh_pushFaces]
  have hi : pre.length < (pre ++ f :: suf).length := by simp
  obtain ⟨g0, g1, g2, _⟩ := triangleIndices_getElem (pre ++ f :: suf).length 0 pre.length hi
  have a0 : ((0 : Nat) : Int) + 3 * (pre.length : Int) = ((3 * pre.length : Nat) : Int) := by
    push_cast; ring
  have a1 : ((0 : Nat) : Int) + 3 * (pre.length : Int) + 1
      = ((3 * pre.length + 1 : Nat) : Int) := by
    push_cast; ring
  have a2 : ((0 : Nat) : Int) + 3 * (pre.length : Int) + 2
      = ((3 * pre.length + 2 : Nat) : Int) := by
    push_cast; ring
  rw [a0] at g0
  rw [a1] at g1
  rw [a2] at g2
  have hn : readVec3f (normalsOf (pre ++ f :: suf)) (pre.length : Int) = some f.n := by
    have e : normalsOf (pre ++ f :: suf)
        = normalsOf pre ++ f.n.x :: f.n.y :: f.n.z :: normalsOf suf := by
      simp [normalsOf_append, normalsOf]
    rw [e]
    exact readVec3f_append _ _ _ _ _ _ (normalsOf_length pre)
  have h1 : readVec3f (coordsOf (pre ++ f :: suf)) ((3 * pre.length : Nat) : Int)
      = some f.v1 := by
    have e : coordsOf (pre ++ f :: suf)
        = coordsOf pre ++ f.v1.x :: f.v1.y :: f.v1.z
            :: ([f.v2.x, f.v2.y, f.v2.z, f.v3.x, f.v3.y, f.v3.z] ++ coordsOf suf) := by
      simp [coordsOf_append, coordsOf]
    rw [e]
    exact readVec3f_append _ _ _ _ _ _ (by rw [coordsOf_length]; omega)
  have h2 : readVec3f (coordsOf (pre ++ f :: suf)) ((3 * pre.length + 1 : Nat) : Int)
      = some f.v2 := by
    have e : coordsOf (pre ++ f :: suf)
        = (coordsOf pre ++ [f.v1.x, f.v1.y, f.v1.z]) ++ f.v2.x :: f.v2.y :: f.v2.z
            :: ([f.v3.x, f.v3.y, f.v3.z] ++ coordsOf suf) := by
      simp [coordsOf_append, coordsOf]
    rw [e]
    exact readVec3f_append _ _ _ _ _ _ (by simp [coordsOf_length]; omega)
  have h3 : readVec3f (coordsOf (pre ++ f :: suf)) ((3 * pre.length + 2 : Nat) : Int)
      = some f.v3 := by
    have e : coordsOf (pre ++ f :: suf)
        = (coordsOf pre ++ [f.v1.x, f.v1.y, f.v1.z, f.v2.x, f.v2.y, f.v2.z])
            ++ f.v3.x :: f.v3.y :: f.v3.z :: coordsOf suf := by
      simp [coordsOf_append, coordsOf]
    rw [e]
    exact readVec3f_append _ _ _ _ _ _ (by simp [coordsOf_length]; omega)
  simp only [IndexedFaceSet.faceAt, g0, g1, g2, hn, h1, h2, h3]

/-- The faces of an imported mesh are the records it was imported from. -/
theorem IndexedFaceSet.facesFrom_loaded {F : Type} :
    ∀ (suf pre : List (Face F)),
      ((IndexedFaceSet.fresh F).pushFaces (pre ++ suf)).facesFrom suf.length pre.length
        = some suf
  | [], pre => rfl
  | f :: suf, pre => by
    have h1 := IndexedFaceSet.faceAt_loaded pre f suf
    have h2 := IndexedFaceSet.facesFrom_loaded suf (pre ++ [f])
    simp only [List.append_assoc, List.singleton_append, List.length_append,
      List.length_singleton] at h2
    simp only [List.length_cons, IndexedFaceSet.facesFrom, h1, h2]

/-- C1: take any call of `LoaderStl::load` that returns success, and a destination that can
be opened.  The token stream read is `solid`, a name, `N` face records and `endsolid`, the
numbers of the records read as the stored floats `faces`; and `SaverStl::save` on the
resulting scene graph returns success and writes `solid <destination>`, then exactly the `N`
records `faces` in the same order, each with its normal and its first, second and third
vertex, then `endsolid <destination>`. -/
theorem SaverStl.save_load_roundtrip {F : Type} (env : Env F) (fs : FileSystem)
    (filename : Option String) (wrl : SceneGraph F) (res : LoadResult F) (dst : String)
    (h : LoaderStl.load env fs filename wrl = some res) (hs : res.success = true)
    (hd : fs.fopenWrite dst = true) :
    ∃ (path text name : String) (recs : List (Face String)) (faces : List (Face F))
      (more : List String) (fs1 : FileSystem),
      filename = some path ∧ fs.fopenRead path = some text ∧
      env.scan text = "solid" :: name :: (recordTokens recs ++ "endsolid" :: more) ∧
      recs.map (Face.parse env) = faces.map some ∧ faces.length = recs.length ∧
      SaverStl.save env fs (some dst) res.wrl = some (true, fs1) ∧
      fs1.fopenRead dst
        = some ("solid " ++ dst ++ "\n" ++ facesText env faces ++ "endsolid " ++ dst ++ "\n") := by
  obtain ⟨path, text, name, recs, faces, more, hp, ho, hscan, hparse, hres⟩ :=
    LoaderStl.load_success env fs filename wrl res h hs
  have hlen : faces.length = recs.length := by
    have := congrArg List.length hparse
    simpa using this.symm
  have hci : ((IndexedFaceSet.fresh F).pushFaces faces).coordIndex
      = triangleIndices 0 faces.length := by
    rw [IndexedFaceSet.fresh_pushFaces]
  have hnpv : ((IndexedFaceSet.fresh F).pushFaces faces).normalPerVertex = false := by
    rw [IndexedFaceSet.fresh_pushFaces]
  have hsave := SaverStl.save_valid env fs dst res.wrl
    (LoaderStl.newShape ((IndexedFaceSet.fresh F).pushFaces faces))
    ((IndexedFaceSet.fresh F).pushFaces faces)
    (by subst hres
        simp [LoaderStl.link, SceneGraph.addChild, SceneGraph.setUrl, SceneGraph.clear])
    rfl
    (by rw [IndexedFaceSet.isTriangleMesh, hci]; exact triangleIndices_isTriangleList _ _)
    hnpv hd
  have hfaces := IndexedFaceSet.facesFrom_loaded faces ([] : List (Face F))
  simp only [List.nil_append, List.length_nil] at hfaces
  rw [Faces.getNumberOfFaces, hci, triangleIndices_count, hfaces] at hsave
  exact ⟨path, text, name, recs, faces, more, _, hp, ho, hscan, hparse, hlen, hsave,
    FileSystem.fopenRead_fclose _ _ _⟩

/-- C1 on the one-face file, exported to `copy.stl`. -/
theorem SaverStl.save_load_roundtrip_witness :
    (LoaderStl.load Example.env Example.cubeFs (some "cube.stl") Example.emptyScene
        = some Example.cubeLoaded ∧ Example.cubeLoaded.success = true ∧
      Example.cubeFs.fopenWrite "copy.stl" = true) ∧
    ∃ (path text name : String) (recs : List (Face String)) (faces : List (Face Int))
      (more : List String) (fs1 : FileSystem),
      (some "cube.stl" : Option String) = some path ∧
      Example.cubeFs.fopenRead path = some text ∧
      Example.env.scan text = "solid" :: name :: (recordTokens recs ++ "endsolid" :: more) ∧
      recs.map (Face.parse Example.env) = faces.map some ∧ faces.length = recs.length ∧
      SaverStl.save Example.env Example.cubeFs (some "copy.stl") Example.cubeLoaded.wrl
        = some (true, fs1) ∧
      fs1.fopenRead "copy.stl"
        = some ("solid " ++ "copy.stl" ++ "\n" ++ facesText Example.env faces
            ++ "endsolid " ++ "copy.stl" ++ "\n") :=
  ⟨⟨by decide, rfl, by decide⟩,
   SaverStl.save_load_roundtrip Example.env Example.cubeFs (some "cube.stl")
     Example.emptyScene Example.cubeLoaded "copy.stl" (by decide) rfl (by decide)⟩

set_option maxRecDepth 100000 in
/-- C10, the code at `dir/cube.stl`: the header and trailer lines carry the file name as it
was passed, directory and extension included, not `cube`; and a name assigned to the mesh
(`part`) does not appear in them either. -/
theorem SaverStl.save_header_keeps_path :
    SaverStl.save Example.env Example.blankFs (some "dir/cube.stl")
        (Example.sceneOf (.indexedFaceSet Example.cubeMesh))
      = some (true, Example.blankFs.fclose "dir/cube.stl"
          ("solid dir/cube.stl\n" ++ facesText Example.env [Example.cubeFace]
            ++ "endsolid dir/cube.stl\n")) ∧
    SaverStl.save Example.env Example.blankFs (some "dir/cube.stl")
        (Example.sceneOf (.indexedFaceSet { Example.cubeMesh with name := "part" }))
      = some (true, Example.blankFs.fclose "dir/cube.stl"
          ("solid dir/cube.stl\n" ++ facesText Example.env [Example.cubeFace]
            ++ "endsolid dir/cube.stl\n")) ∧
    "solid dir/cube.stl\n" ≠ "solid cube\n" ∧ "solid dir/cube.stl\n" ≠ "solid part\n" := by
  decide

/-! ## Name, diagnostics and stream handling of the importer -/

/-- C11, the code on the one-face file, whose token after `solid` is `cube`: the import
succeeds, and neither the scene graph nor the shape nor the mesh container it leaves carries
the name `cube`; all three names are empty. -/
theorem LoaderStl.load_drops_name :
    (Example.env.scan Example.cubeText)[0]? = some "solid" ∧
    (Example.env.scan Example.cubeText)[1]? = some "cube" ∧
    LoaderStl.load Example.env Example.cubeFs (some "cube.stl") Example.emptyScene
      = some Example.cubeLoaded ∧
    Example.cubeLoaded.success = true ∧
    Example.cubeLoaded.wrl.children = [Node.shape (LoaderStl.newShape Example.cubeMesh)] ∧
    (LoaderStl.newShape Example.cubeMesh).geometry = .indexedFaceSet Example.cubeMesh ∧
    Example.cubeLoaded.wrl.name = "" ∧ (LoaderStl.newShape Example.cubeMesh).name = "" ∧
    Example.cubeMesh.name = "" ∧ Example.cubeLoaded.wrl.url = "" := by
  decide

/-- C12, the code on a file whose first token is not `solid` and on a file that ends after
`solid`: both calls return failure and write nothing to the diagnostic channel. -/
theorem LoaderStl.load_silent_failure :
    (Example.env.scan Example.noSolidText)[0]? = some "cube" ∧
    LoaderStl.load Example.env Example.variantsFs (some "nosolid.stl") Example.emptyScene
      = some ⟨false, Example.emptyScene, [], 1, 1⟩ ∧
    Example.env.scan Example.onlySolidText = ["solid"] ∧
    LoaderStl.load Example.env Example.variantsFs (some "onlysolid.stl") Example.emptyScene
      = some ⟨false, Example.emptyScene, [], 1, 1⟩ := by
  decide

/-- C13: every call of `LoaderStl::load` returns, and when the source was opened the stream
has been opened once and closed once on return, whichever way the call ends (success, first
token not `solid`, no token after `solid`, exception in the face loop); when the file name is
null or the open fails, no stream was opened and none is closed. -/
theorem LoaderStl.load_closes_once {F : Type} (env : Env F) (fs : FileSystem)
    (filename : Option String) (wrl : SceneGraph F) :
    ∃ res : LoadResult F, LoaderStl.load env fs filename wrl = some res ∧
      ((∃ path text, filename = some path ∧ fs.fopenRead path = some text) →
        res.opened = 1 ∧ res.closed = 1) ∧
      ((filename = none ∨ ∃ path, filename = some path ∧ fs.fopenRead path = none) →
        res.opened = 0 ∧ res.closed = 0) := by
  obtain ⟨res, hres⟩ := Option.isSome_iff_exists.mp (LoaderStl.load_total env fs filename wrl)
  refine ⟨res, hres, ?_, ?_⟩
  · rintro ⟨path, text, rfl, hopen⟩
    unfold LoaderStl.load at hres
    simp only [hopen] at hres
    split at hres
    · cases hres
      exact ⟨rfl, rfl⟩
    · split at hres
      · cases hres
        exact ⟨rfl, rfl⟩
      · split at hres
        · cases hres
        · cases hres
          exact ⟨rfl, rfl⟩
        · cases hres
          exact ⟨rfl, rfl⟩
  · rintro (rfl | ⟨path, rfl, hopen⟩)
    · simp [LoaderStl.load] at hres
      subst hres
      exact ⟨rfl, rfl⟩
    · simp [LoaderStl.load, hopen] at hres
      subst hres
      exact ⟨rfl, rfl⟩

/-- C14: whatever the scene graph held before, after a successful `LoaderStl::load` it has
exactly one child; that child is a `Shape` whose appearance holds a `Material` and whose
geometry is an `IndexedFaceSet` with `normalPerVertex = false`; its label (`url`) is empty;
and no prior child remains, the only child being the shape the call created. -/
theorem LoaderStl.load_scene_shape {F : Type} (env : Env F) (fs : FileSystem)
    (filename : Option String) (wrl : SceneGraph F) (res : LoadResult F)
    (h : LoaderStl.load env fs filename wrl = some res) (hs : res.success = true) :
    ∃ (shape : Shape F) (appearance : Appearance) (material : Material)
      (ifs : IndexedFaceSet F),
      res.wrl.getNumberOfChildren = 1 ∧
      res.wrl.children = [Node.shape shape] ∧ shape = LoaderStl.newShape ifs ∧
      shape.appearance = some appearance ∧ appearance.material = some material ∧
      shape.geometry = .indexedFaceSet ifs ∧ ifs.normalPerVertex = false ∧
      res.wrl.url = "" := by
  obtain ⟨path, text, name, recs, faces, more, _, _, _, _, hres⟩ :=
    LoaderStl.load_success env fs filename wrl res h hs
  subst hres
  refine ⟨LoaderStl.newShape ((IndexedFaceSet.fresh F).pushFaces faces),
    { name := "", material := some { name := "" } }, { name := "" },
    (IndexedFaceSet.fresh F).pushFaces faces, ?_, ?_, rfl, rfl, rfl, rfl, ?_, ?_⟩
  · simp [SceneGraph.getNumberOfChildren, LoaderStl.link, SceneGraph.addChild,
      SceneGraph.setUrl, SceneGraph.clear]
  · simp [LoaderStl.link, SceneGraph.addChild, SceneGraph.setUrl, SceneGraph.clear]
  · rw [IndexedFaceSet.fresh_pushFaces]
  · simp [LoaderStl.link, SceneGraph.addChild, SceneGraph.setUrl, SceneGraph.clear]

/-- C14 on a scene graph that held a label and two children before the import. -/
theorem LoaderStl.load_scene_shape_witness :
    (Example.usedScene.getNumberOfChildren = 2 ∧ Example.usedScene.url = "old.wrl" ∧
      LoaderStl.load Example.env Example.variantsFs (some "cube.stl") Example.usedScene
        = some Example.cubeLoaded ∧ Example.cubeLoaded.success = true) ∧
    ∃ (shape : Shape Int) (appearance : Appearance) (material : Material)
      (ifs : IndexedFaceSet Int),
      Example.cubeLoaded.wrl.getNumberOfChildren = 1 ∧
      Example.cubeLoaded.wrl.children = [Node.shape shape] ∧
      shape = LoaderStl.newShape ifs ∧
      shape.appearance = some appearance ∧ appearance.material = some material ∧
      shape.geometry = .indexedFaceSet ifs ∧ ifs.normalPerVertex = false ∧
      Example.cubeLoaded.wrl.url = "" :=
  ⟨⟨by decide, by decide, by decide, rfl⟩,
   LoaderStl.load_scene_shape Example.env Example.variantsFs (some "cube.stl")
     Example.usedScene Example.cubeLoaded (by decide) rfl⟩

/-! ## Index bounds, partial meshes and trailing tokens -/

theorem triangleIndices_mem :
    ∀ (n k : Nat) (v : Int), v ∈ triangleIndices k n →
      v = -1 ∨ ((k : Int) ≤ v ∧ v < (k : Int) + 3 * (n : Int))
  | 0, _, _, h => by simp [triangleIndices] at h
  | n + 1, k, v, h => by
    simp only [triangleIndices, List.cons_append, List.nil_append, List.mem_cons] at h
    rcases h with rfl | rfl | rfl | rfl | h
    · right; constructor <;> push_cast <;> omega
    · right; constructor <;> push_cast <;> omega
    · right; constructor <;> push_cast <;> omega
    · left; rfl
    · rcases triangleIndices_mem n (k + 3) v h with h1 | ⟨h1, h2⟩
      · left; exact h1
      · right
        push_cast at h1 h2 ⊢
        constructor <;> omega

/-- C15: in every mesh a successful `LoaderStl::load` produces, the number of sentinels `-1`
of the index list is the number of face records read, and every other entry `v` of the index
list satisfies `0 ≤ v` and `3 v + 2 < len(coord)`: it references a complete triple of the
coordinate sequence. -/
theorem LoaderStl.load_index_bounds {F : Type} (env : Env F) (fs : FileSystem)
    (filename : Option String) (wrl : SceneGraph F) (res : LoadResult F)
    (h : LoaderStl.load env fs filename wrl = some res) (hs : res.success = true) :
    ∃ (path text name : String) (recs : List (Face String)) (more : List String)
      (shape : Shape F) (ifs : IndexedFaceSet F),
      filename = some path ∧ fs.fopenRead path = some text ∧
      env.scan text = "solid" :: name :: (recordTokens recs ++ "endsolid" :: more) ∧
      res.wrl.children = [Node.shape shape] ∧ shape.geometry = .indexedFaceSet ifs ∧
      ifs.coordIndex.count (-1) = recs.length ∧
      ∀ v ∈ ifs.coordIndex, v ≠ -1 → 0 ≤ v ∧ 3 * v + 2 < (ifs.coord.length : Int) := by
  obtain ⟨path, text, name, recs, faces, more, hp, ho, hscan, hparse, hres⟩ :=
    LoaderStl.load_success env fs filename wrl res h hs
  have hlen : faces.length = recs.length := by
    have := congrArg List.length hparse
    simpa using this.symm
  subst hres
  refine ⟨path, text, name, recs, more,
    LoaderStl.newShape ((IndexedFaceSet.fresh F).pushFaces faces),
    (IndexedFaceSet.fresh F).pushFaces faces, hp, ho, hscan, ?_, rfl, ?_, ?_⟩
  · simp [LoaderStl.link, SceneGraph.addChild, SceneGraph.setUrl, SceneGraph.clear]
  · rw [IndexedFaceSet.fresh_pushFaces]
    simp only [triangleIndices_count, hlen]
  · rw [IndexedFaceSet.fresh_pushFaces]
    intro v hv hne
    simp only at hv
    rcases triangleIndices_mem _ _ v hv with h1 | ⟨h1, h2⟩
    · exact absurd h1 hne
    · simp only [coordsOf_length]
      push_cast at h1 h2 ⊢
      constructor <;> omega

/-- C15 on the one-face file. -/
theorem LoaderStl.load_index_bounds_witness :
    (LoaderStl.load Example.env Example.cubeFs (some "cube.stl") Example.emptyScene
        = some Example.cubeLoaded ∧ Example.cubeLoaded.success = true) ∧
    ∃ (path text name : String) (recs : List (Face String)) (more : List String)
      (shape : Shape Int) (ifs : IndexedFaceSet Int),
      (some "cube.stl" : Option String) = some path ∧
      Example.cubeFs.fopenRead path = some text ∧
      Example.env.scan text = "solid" :: name :: (recordTokens recs ++ "endsolid" :: more) ∧
      Example.cubeLoaded.wrl.children = [Node.shape shape] ∧
      shape.geometry = .indexedFaceSet ifs ∧
      ifs.coordIndex.count (-1) = recs.length ∧
      ∀ v ∈ ifs.coordIndex, v ≠ -1 → 0 ≤ v ∧ 3 * v + 2 < (ifs.coord.length : Int) :=
  ⟨⟨by decide, rfl⟩,
   LoaderStl.load_index_bounds Example.env Example.cubeFs (some "cube.stl")
     Example.emptyScene Example.cubeLoaded (by decide) rfl⟩

/-- However the face loop ends, with `break` or with an exception, the mesh it leaves is the
mesh it started from with whole faces pushed onto it. -/
theorem LoaderStl.faceLoop_whole_faces {F : Type} (env : Env F) :
    ∀ (fuel : Nat) (t : Tokenizer) (ifs ifs1 : IndexedFaceSet F) (out : Except String Unit),
      LoaderStl.faceLoop env fuel t ifs = some (out, ifs1) →
      ∃ faces : List (Face F), ifs1 = ifs.pushFaces faces
  | 0, _, _, _, _, h => by simp [LoaderStl.faceLoop] at h
  | fuel + 1, t, ifs, ifs1, out, h => by
    obtain ⟨xs, c⟩ := t
    cases xs with
    | nil =>
      simp [LoaderStl.faceLoop] at h
      exact ⟨[], by simp [IndexedFaceSet.pushFaces, h.2]⟩
    | cons x xs =>
      simp only [LoaderStl.faceLoop, Tokenizer.get_cons] at h
      split at h
      · simp only [Option.some.injEq, Prod.mk.injEq] at h
        exact ⟨[], by simp [IndexedFaceSet.pushFaces, h.2]⟩
      · split at h
        · simp only [Option.some.injEq, Prod.mk.injEq] at h
          exact ⟨[], by simp [IndexedFaceSet.pushFaces, h.2]⟩
        · split at h
          · simp only [Option.some.injEq, Prod.mk.injEq] at h
            exact ⟨[], by simp [IndexedFaceSet.pushFaces, h.2]⟩
          · rename_i f t2 hp
            obtain ⟨faces, hf⟩ :=
              LoaderStl.faceLoop_whole_faces env fuel t2 (ifs.pushFace f) ifs1 out h
            exact ⟨f :: faces, by simp [IndexedFaceSet.pushFaces, hf]⟩

/-- Whatever `LoaderStl::load` returns, a mesh it leaves in the scene graph consists of whole
faces. -/
theorem LoaderStl.load_whole_faces {F : Type} (env : Env F) (fs : FileSystem)
    (filename : Option String) (wrl : SceneGraph F) (res : LoadResult F)
    (h : LoaderStl.load env fs filename wrl = some res) :
    res.wrl.children = [] ∨
    ∃ faces : List (Face F), res.wrl.children
      = [Node.shape (LoaderStl.newShape ((IndexedFaceSet.fresh F).pushFaces faces))] := by
  unfold LoaderStl.load at h
  cases filename with
  | none =>
    simp at h
    subst h
    left; rfl
  | some path =>
    simp only at h
    split at h
    · simp at h
      subst h
      left; rfl
    · split at h
      · simp at h
        subst h
        left; rfl
      · split at h
        · simp at h
          subst h
          left; rfl
        · rename_i t2 _
          split at h
          · cases h
          · rename_i ifs1 hl
            obtain ⟨faces, hf⟩ := LoaderStl.faceLoop_whole_faces env _ _ _ _ _ hl
            simp at h
            subst h
            right
            exact ⟨faces, by
              simp [LoaderStl.link, SceneGraph.addChild, SceneGraph.setUrl, SceneGraph.clear,
                hf, IndexedFaceSet.fresh]⟩
          · rename_i e ifs1 hl
            obtain ⟨faces, hf⟩ := LoaderStl.faceLoop_whole_faces env _ _ _ _ _ hl
            simp at h
            subst h
            right
            exact ⟨faces, by
              simp [LoaderStl.link, SceneGraph.addChild, SceneGraph.setUrl, SceneGraph.clear,
                hf, IndexedFaceSet.fresh]⟩

/-- C17: the mesh arrays grow by whole faces only.
At every iteration of the face loop of `LoaderStl::load`: whatever the token stream, once the
loop, started on the empty mesh, has read `j` well-formed records it stands at the next
iteration with a mesh that holds exactly those records, `len(coord) = 9 j`,
`len(normal) = 3 j` and the index list `[0,1,2,-1, ...]` of `j` faces; no hypothesis is made on
what follows the records, so this holds in accepted and in failing runs alike.
After a failing load: when what follows `k - 1` well-formed records makes the call fail there
(end of input, a token other than `facet` and `endsolid`, or a `k`-th record on which
`parse_face` throws), the mesh left in the scene graph has `len(coord) = 9 (k-1)`,
`len(normal) = 3 (k-1)` and the index list of exactly `k - 1` faces: no scalar, index or
normal of the malformed record has been appended.
And for every call whatsoever, successful or not: a mesh found in the scene graph afterwards
has `len(coord) = 9 j`, `len(normal) = 3 j` and the index list of `j` faces for some `j`. -/
theorem LoaderStl.load_partial_mesh {F : Type} (env : Env F) :
    (∀ (recs : List (Face String)) (faces : List (Face F)) (tail : List String)
        (fuel : Nat) (cur : String),
      recs.map (Face.parse env) = faces.map some →
      LoaderStl.faceLoop env (recs.length + fuel)
          (Tokenizer.mk (recordTokens recs ++ tail) cur) (IndexedFaceSet.fresh F)
        = LoaderStl.faceLoop env fuel (Tokenizer.mk tail cur)
            { name := "", coordIndex := triangleIndices 0 recs.length, coord := coordsOf faces,
              normal := normalsOf faces, normalPerVertex := false } ∧
      (coordsOf faces).length = 9 * recs.length ∧
      (normalsOf faces).length = 3 * recs.length ∧
      (triangleIndices 0 recs.length).length = 4 * recs.length) ∧
    (∀ (fs : FileSystem) (path text : String) (wrl : SceneGraph F) (name : String)
        (recs : List (Face String)) (faces : List (Face F)) (tail : List String),
      fs.fopenRead path = some text →
      env.scan text = "solid" :: name :: (recordTokens recs ++ tail) →
      recs.map (Face.parse env) = faces.map some →
      (tail = [] ∨ (∃ x xs, tail = x :: xs ∧ x ≠ "facet" ∧ x ≠ "endsolid") ∨
        (∃ ys e, tail = "facet" :: ys ∧
          LoaderStl.parse_face env (Tokenizer.mk ys "facet") = .error e)) →
      ∃ (res : LoadResult F) (shape : Shape F) (ifs : IndexedFaceSet F),
        LoaderStl.load env fs (some path) wrl = some res ∧ res.success = false ∧
        res.wrl.children = [Node.shape shape] ∧ shape.geometry = .indexedFaceSet ifs ∧
        ifs.coord = coordsOf faces ∧ ifs.coord.length = 9 * recs.length ∧
        ifs.normal = normalsOf faces ∧ ifs.normal.length = 3 * recs.length ∧
        ifs.coordIndex = triangleIndices 0 recs.length ∧
        ifs.coordIndex.length = 4 * recs.length) ∧
    (∀ (fs : FileSystem) (filename : Option String) (wrl : SceneGraph F) (res : LoadResult F)
        (shape : Shape F) (ifs : IndexedFaceSet F),
      LoaderStl.load env fs filename wrl = some res →
      res.wrl.children = [Node.shape shape] → shape.geometry = .indexedFaceSet ifs →
      ∃ j : Nat, ifs.coord.length = 9 * j ∧ ifs.normal.length = 3 * j ∧
        ifs.coordIndex = triangleIndices 0 j ∧ ifs.coordIndex.length = 4 * j) := by
  have hlen : ∀ (recs : List (Face String)) (faces : List (Face F)),
      recs.map (Face.parse env) = faces.map some → faces.length = recs.length := by
    intro recs faces hparse
    have := congrArg List.length hparse
    simpa using this.symm
  refine ⟨?_, ?_, ?_⟩
  · intro recs faces tail fuel cur hparse
    refine ⟨?_, ?_, ?_, triangleIndices_length _ _⟩
    · rw [LoaderStl.faceLoop_records env recs faces hparse, IndexedFaceSet.fresh_pushFaces,
        hlen recs faces hparse]
    · rw [coordsOf_length, hlen recs faces hparse]
    · rw [normalsOf_length, hlen recs faces hparse]
  · intro fs path text wrl name recs faces tail hopen hscan hparse hfail
    have hl := LoaderStl.load_records env fs path text wrl name recs faces tail hopen hscan
      hparse
    have hstop : ∃ e, LoaderStl.faceLoop env (20 * recs.length + tail.length + 1)
        (Tokenizer.mk tail name) ((IndexedFaceSet.fresh F).pushFaces faces)
          = some (.error e, (IndexedFaceSet.fresh F).pushFaces faces) := by
      rcases hfail with rfl | ⟨x, xs, rfl, h1, h2⟩ | ⟨ys, e, rfl, he⟩
      · exact ⟨_, LoaderStl.faceLoop_end env _ _ _⟩
      · exact ⟨_, LoaderStl.faceLoop_stray env _ x xs _ _ h1 h2⟩
      · exact ⟨e, LoaderStl.faceLoop_bad_face env _ ys _ e _ he⟩
    obtain ⟨e, he⟩ := hstop
    rw [he] at hl
    refine ⟨_, LoaderStl.newShape ((IndexedFaceSet.fresh F).pushFaces faces),
      (IndexedFaceSet.fresh F).pushFaces faces, hl, rfl, ?_, rfl, ?_⟩
    · simp [LoaderStl.link, SceneGraph.addChild, SceneGraph.setUrl, SceneGraph.clear]
    · rw [IndexedFaceSet.fresh_pushFaces, hlen recs faces hparse]
      refine ⟨rfl, ?_, rfl, ?_, rfl, triangleIndices_length _ _⟩
      · show (coordsOf faces).length = 9 * recs.length
        rw [coordsOf_length, hlen recs faces hparse]
      · show (normalsOf faces).length = 3 * recs.length
        rw [normalsOf_length, hlen recs faces hparse]
  · intro fs filename wrl res shape ifs h hc hg
    rcases LoaderStl.load_whole_faces env fs filename wrl res h with h0 | ⟨faces, hf⟩
    · rw [h0] at hc
      cases hc
    · rw [hf] at hc
      cases hc
      simp only [LoaderStl.newShape, Geometry.indexedFaceSet.injEq] at hg
      subst hg
      rw [IndexedFaceSet.fresh_pushFaces]
      exact ⟨faces.length, coordsOf_length faces, normalsOf_length faces, rfl,
        triangleIndices_length _ _⟩

set_option maxRecDepth 100000 in
/-- C17 on two runs.  The accepted one-face file: at its first iteration (no record read) and
at its second (one record read, `endsolid` next) the loop stands with the mesh of the records
read so far.  The file whose second record lacks `endloop`: the mesh left behind holds the
first record only. -/
theorem LoaderStl.load_partial_mesh_witness :
    (([] : List (Face String)).map (Face.parse Example.env)
        = ([] : List (Face Int)).map some ∧
      LoaderStl.faceLoop Example.env (0 + 24)
          (Tokenizer.mk (recordTokens [] ++ (Example.env.scan Example.cubeText).drop 2) "cube")
          (IndexedFaceSet.fresh Int)
        = LoaderStl.faceLoop Example.env 24
            (Tokenizer.mk ((Example.env.scan Example.cubeText).drop 2) "cube")
            { name := "", coordIndex := [], coord := [], normal := [],
              normalPerVertex := false }) ∧
    ([Example.cubeRecord].map (Face.parse Example.env) = [Example.cubeFace].map some ∧
      LoaderStl.faceLoop Example.env (1 + 23)
          (Tokenizer.mk (recordTokens [Example.cubeRecord] ++ ["endsolid", "cube"]) "cube")
          (IndexedFaceSet.fresh Int)
        = LoaderStl.faceLoop Example.env 23 (Tokenizer.mk ["endsolid", "cube"] "cube")
            Example.cubeMesh ∧
      Example.cubeMesh.coord.length = 9 * 1 ∧ Example.cubeMesh.normal.length = 3 * 1 ∧
      Example.cubeMesh.coordIndex.length = 4 * 1 ∧
      Example.env.scan Example.cubeText
        = "solid" :: "cube" :: (recordTokens [Example.cubeRecord] ++ ["endsolid", "cube"])) ∧
    (Example.variantsFs.fopenRead "secondbad.stl" = some Example.secondBadText ∧
      Example.env.scan Example.secondBadText
        = "solid" :: "cube" :: (recordTokens [Example.cubeRecord]
            ++ (Example.env.scan Example.secondBadText).drop 23) ∧
      (∃ ys e, (Example.env.scan Example.secondBadText).drop 23 = "facet" :: ys ∧
        LoaderStl.parse_face Example.env (Tokenizer.mk ys "facet") = .error e)) ∧
    ∃ (res : LoadResult Int) (shape : Shape Int) (ifs : IndexedFaceSet Int),
      LoaderStl.load Example.env Example.variantsFs (some "secondbad.stl") Example.emptyScene
        = some res ∧ res.success = false ∧
      res.wrl.children = [Node.shape shape] ∧ shape.geometry = .indexedFaceSet ifs ∧
      ifs.coord = [0, 0, 0, 1, 0, 0, 0, 1, 0] ∧ ifs.coord.length = 9 * 1 ∧
      ifs.normal = [0, 0, 1] ∧ ifs.normal.length = 3 * 1 ∧
      ifs.coordIndex = [0, 1, 2, -1] ∧ ifs.coordIndex.length = 4 * 1 := by
  have hbad : ∃ ys e, (Example.env.scan Example.secondBadText).drop 23 = "facet" :: ys ∧
      LoaderStl.parse_face Example.env (Tokenizer.mk ys "facet") = .error e :=
    ⟨(Example.env.scan Example.secondBadText).drop 24, "expected token: \"endloop\"",
      by decide, rfl⟩
  have hp0 : ([] : List (Face String)).map (Face.parse Example.env)
      = ([] : List (Face Int)).map some := rfl
  have hp1 : [Example.cubeRecord].map (Face.parse Example.env)
      = [Example.cubeFace].map some := by decide
  obtain ⟨hinv, hfail, _⟩ := LoaderStl.load_partial_mesh Example.env
  refine ⟨⟨hp0, ?_⟩, ⟨hp1, ?_, by decide, by decide, by decide, by decide⟩,
    ⟨by decide, by decide, hbad⟩, ?_⟩
  · exact (hinv [] [] ((Example.env.scan Example.cubeText).drop 2) 24 "cube" hp0).1
  · exact (hinv [Example.cubeRecord] [Example.cubeFace] ["endsolid", "cube"] 23 "cube" hp1).1
  · exact hfail Example.variantsFs "secondbad.stl" Example.secondBadText Example.emptyScene
      "cube" [Example.cubeRecord] [Example.cubeFace]
      ((Example.env.scan Example.secondBadText).drop 23) (by decide) (by decide) hp1
      (Or.inr (Or.inr hbad))

/-- C18: `LoaderStl::load` reads nothing behind the first `endsolid` it meets at a face-list
position.  When two sources hold token streams that agree up to and including that
`endsolid` (`solid`, a name, well-formed records, `endsolid`), the two calls return the same
result, success, with the same scene graph and so the same coordinate, index and normal
arrays, whatever follows `endsolid` in either stream. -/
theorem LoaderStl.load_ignores_trailing {F : Type} (env : Env F) (fs1 fs2 : FileSystem)
    (path1 path2 text1 text2 : String) (wrl : SceneGraph F) (name : String)
    (recs : List (Face String)) (faces : List (Face F)) (more1 more2 : List String)
    (hopen1 : fs1.fopenRead path1 = some text1) (hopen2 : fs2.fopenRead path2 = some text2)
    (hscan1 : env.scan text1 = "solid" :: name :: (recordTokens recs ++ "endsolid" :: more1))
    (hscan2 : env.scan text2 = "solid" :: name :: (recordTokens recs ++ "endsolid" :: more2))
    (hparse : recs.map (Face.parse env) = faces.map some) :
    LoaderStl.load env fs1 (some path1) wrl = LoaderStl.load env fs2 (some path2) wrl ∧
    ∃ res : LoadResult F, LoaderStl.load env fs1 (some path1) wrl = some res ∧
      res.success = true ∧
      res.wrl.children = [Node.shape (LoaderStl.newShape
        { name := "", coordIndex := triangleIndices 0 recs.length, coord := coordsOf faces,
          normal := normalsOf faces, normalPerVertex := false })] := by
  have hlen : faces.length = recs.length := by
    have := congrArg List.length hparse
    simpa using this.symm
  have h1 := LoaderStl.load_accepted env fs1 path1 text1 wrl name recs faces more1 hopen1
    hscan1 hparse
  have h2 := LoaderStl.load_accepted env fs2 path2 text2 wrl name recs faces more2 hopen2
    hscan2 hparse
  refine ⟨by rw [h1, h2], _, h1, rfl, ?_⟩
  rw [IndexedFaceSet.fresh_pushFaces, hlen]
  simp [LoaderStl.link, SceneGraph.addChild, SceneGraph.setUrl, SceneGraph.clear]

/-- C18 on the one-face file and the same file followed by a name, stray tokens and a second
solid. -/
theorem LoaderStl.load_ignores_trailing_witness :
    (Example.variantsFs.fopenRead "cube.stl" = some Example.cubeText ∧
      Example.variantsFs.fopenRead "trailing.stl" = some Example.trailingText ∧
      Example.env.scan Example.cubeText
        = "solid" :: "cube" :: (recordTokens [Example.cubeRecord] ++ "endsolid" :: ["cube"]) ∧
      Example.env.scan Example.trailingText
        = "solid" :: "cube" :: (recordTokens [Example.cubeRecord] ++ "endsolid"
            :: ["other", "junk", "solid", "second", "facet"]) ∧
      [Example.cubeRecord].map (Face.parse Example.env) = [Example.cubeFace].map some) ∧
    LoaderStl.load Example.env Example.variantsFs (some "cube.stl") Example.usedScene
      = LoaderStl.load Example.env Example.variantsFs (some "trailing.stl") Example.usedScene ∧
    ∃ res : LoadResult Int,
      LoaderStl.load Example.env Example.variantsFs (some "cube.stl") Example.usedScene
        = some res ∧ res.success = true ∧
      res.wrl.children = [Node.shape (LoaderStl.newShape
        { name := "", coordIndex := triangleIndices 0 [Example.cubeRecord].length,
          coord := coordsOf [Example.cubeFace], normal := normalsOf [Example.cubeFace],
          normalPerVertex := false })] :=
  ⟨⟨by decide, by decide, by decide, by decide, by decide⟩,
   LoaderStl.load_ignores_trailing Example.env Example.variantsFs Example.variantsFs
     "cube.stl" "trailing.stl" Example.cubeText Example.trailingText Example.usedScene "cube"
     [Example.cubeRecord] [Example.cubeFace] ["cube"]
     ["other", "junk", "solid", "second", "facet"]
     (by decide) (by decide) (by decide) (by decide) (by decide)⟩

/-! ## Array bounds in the face loop of the exporter -/

theorem readVec3f_inBounds {F : Type} (a : List F) (v : Int) (h0 : 0 ≤ v)
    (h1 : 3 * v + 2 < (a.length : Int)) : ∃ p, readVec3f a v = some p := by
  have hv : ¬ (v < 0) := by omega
  have e0 : 3 * v.toNat < a.length := by omega
  have e1 : 3 * v.toNat + 1 < a.length := by omega
  have e2 : 3 * v.toNat + 2 < a.length := by omega
  refine ⟨⟨a[3 * v.toNat], a[3 * v.toNat + 1], a[3 * v.toNat + 2]⟩, ?_⟩
  simp [readVec3f, hv, List.getElem?_eq_getElem, e0, e1, e2]

theorem IndexedFaceSet.faceAt_inBounds {F : Type} (ifs : IndexedFaceSet F) (i : Nat)
    (ht : IndexedFaceSet.isTriangleList ifs.coordIndex = true)
    (hb : SaverStl.ReadsInBounds ifs) (hi : i < Faces.getNumberOfFaces ifs.coordIndex) :
    ∃ f, ifs.faceAt i = some f := by
  obtain ⟨_, a, b, c, g0, g1, g2, _, na, nb, nc⟩ :=
    Faces.triangle_face i ifs.coordIndex 0 ht hi
  obtain ⟨hn, hc⟩ := hb
  have ma : a ∈ ifs.coordIndex := List.getElem?_mem g0
  have mb : b ∈ ifs.coordIndex := List.getElem?_mem g1
  have mc : c ∈ ifs.coordIndex := List.getElem?_mem g2
  obtain ⟨n, en⟩ := readVec3f_inBounds ifs.normal (i : Int) (by omega)
    (by have := hn i hi; omega)
  obtain ⟨p1, e1⟩ := readVec3f_inBounds ifs.coord a (hc a ma na).1 (hc a ma na).2
  obtain ⟨p2, e2⟩ := readVec3f_inBounds ifs.coord b (hc b mb nb).1 (hc b mb nb).2
  obtain ⟨p3, e3⟩ := readVec3f_inBounds ifs.coord c (hc c mc nc).1 (hc c mc nc).2
  exact ⟨⟨n, p1, p2, p3⟩, by simp only [IndexedFaceSet.faceAt, g0, g1, g2, en, e1, e2, e3]⟩

theorem IndexedFaceSet.facesFrom_inBounds {F : Type} (ifs : IndexedFaceSet F)
    (ht : IndexedFaceSet.isTriangleList ifs.coordIndex = true)
    (hb : SaverStl.ReadsInBounds ifs) :
    ∀ (k i : Nat), i + k ≤ Faces.getNumberOfFaces ifs.coordIndex →
      ∃ faces, ifs.facesFrom k i = some faces
  | 0, _, _ => ⟨[], rfl⟩
  | k + 1, i, h => by
    obtain ⟨f, hf⟩ := IndexedFaceSet.faceAt_inBounds ifs i ht hb (by omega)
    obtain ⟨fs, hfs⟩ := IndexedFaceSet.facesFrom_inBounds ifs ht hb k (i + 1) (by omega)
    exact ⟨f :: fs, by simp only [IndexedFaceSet.facesFrom, hf, hfs]⟩

/-- The arrays of a mesh whose arrays are consistent are large enough for every read of the
face loop. -/
theorem IndexedFaceSet.readsInBounds_of_consistent {F : Type} (ifs : IndexedFaceSet F)
    (h : ifs.ArraysConsistent) : SaverStl.ReadsInBounds ifs := by
  obtain ⟨hn, hc⟩ := h
  refine ⟨fun iF hi => by omega, fun v hv hne => ?_⟩
  obtain ⟨h0, h1⟩ := hc v hv hne
  refine ⟨h0, ?_⟩
  have : 3 * (ifs.coord.length / 3) ≤ ifs.coord.length := Nat.mul_div_le _ _
  omega

/-- C16 as stated fails: a triangle mesh with the per-face flag and an empty normal sequence
passes every validation check of `SaverStl::save`, yet the read `normal[3 * 0 + 2]` of face 0
is outside the normal sequence, and the call, destination open, performs that read. -/
theorem SaverStl.validated_reads_out_of_bounds :
    SaverStl.Validated (some "out.stl")
      (Example.sceneOf (.indexedFaceSet Example.noNormalMesh)) Example.noNormalMesh ∧
    ¬ SaverStl.ReadsInBounds Example.noNormalMesh ∧
    Example.blankFs.fopenWrite "out.stl" = true ∧
    SaverStl.save Example.env Example.blankFs (some "out.stl")
      (Example.sceneOf (.indexedFaceSet Example.noNormalMesh)) = none := by
  refine ⟨⟨by decide, by decide, _, rfl, rfl, by decide, rfl⟩, ?_, by decide, by decide⟩
  rintro ⟨hn, _⟩
  have := hn 0 (by decide)
  simp [Example.noNormalMesh] at this

/-- C16, amended: for every scene graph that passes all validation checks of
`SaverStl::save` and whose mesh arrays are consistent (one normal triple per face, every
vertex index of the index list referencing an entry of the coordinate sequence), every read
of the face loop is in bounds, `3 iF + 2 < len(normal)` for every face and `0 ≤ v`,
`3 v + 2 < len(coord)` for every vertex index, and the call runs to its end and returns. -/
theorem SaverStl.save_reads_in_bounds {F : Type} (env : Env F) (fs : FileSystem)
    (filename : Option String) (wrl : SceneGraph F) (ifs : IndexedFaceSet F)
    (hv : SaverStl.Validated filename wrl ifs) (hc : ifs.ArraysConsistent) :
    SaverStl.ReadsInBounds ifs ∧
    ∃ r : Bool × FileSystem, SaverStl.save env fs filename wrl = some r := by
  have hb := IndexedFaceSet.readsInBounds_of_consistent ifs hc
  refine ⟨hb, ?_⟩
  obtain ⟨hf, hcount, shape, hch, hg, ht, hn⟩ := hv
  cases filename with
  | none => exact absurd rfl hf
  | some path =>
    cases ho : fs.fopenWrite path with
    | false =>
      exact ⟨(false, fs), by
        simp [SaverStl.save, SceneGraph.getNumberOfChildren, hch, hg, ht, hn, ho]⟩
    | true =>
      obtain ⟨faces, hfaces⟩ := IndexedFaceSet.facesFrom_inBounds ifs ht hb
        (Faces.getNumberOfFaces ifs.coordIndex) 0 (by omega)
      rw [SaverStl.save_valid env fs path wrl shape ifs hch hg ht hn ho, hfaces]
      exact ⟨_, rfl⟩

/-- C16, amended, on the mesh of two triangles with shared vertices. -/
theorem SaverStl.save_reads_in_bounds_witness :
    (SaverStl.Validated (some "out.stl")
        (Example.sceneOf (.indexedFaceSet Example.sharedMesh)) Example.sharedMesh ∧
      Example.sharedMesh.ArraysConsistent) ∧
    SaverStl.ReadsInBounds Example.sharedMesh ∧
    ∃ r : Bool × FileSystem,
      SaverStl.save Example.env Example.blankFs (some "out.stl")
        (Example.sceneOf (.indexedFaceSet Example.sharedMesh)) = some r :=
  have hv : SaverStl.Validated (some "out.stl")
      (Example.sceneOf (.indexedFaceSet Example.sharedMesh)) Example.sharedMesh :=
    ⟨by decide, by decide, _, rfl, rfl, by decide, rfl⟩
  have hc : Example.sharedMesh.ArraysConsistent :=
    ⟨by decide, by decide⟩
  ⟨⟨hv, hc⟩,
   SaverStl.save_reads_in_bounds Example.env Example.blankFs (some "out.stl")
     (Example.sceneOf (.indexedFaceSet Example.sharedMesh)) Example.sharedMesh hv hc⟩

end Stl
